import Mathlib

set_option maxRecDepth 16000

/-!
Verification of the xgrain402 SDK against its specification.

The development shallowly embeds the SDK's data model and operations:

* the amount/unit codec `toAtomicUnits` / `fromAtomicUnits` (src/utils), whose
  JavaScript source computes on IEEE-754 double-precision numbers; doubles are
  modelled exactly as dyadic rationals `m * 2^e` with round-to-nearest-even,
* the payment interceptor `createPaymentFetch` (src/client/payment-interceptor.ts),
* the facilitator client `getFeePayer` in both of its variants
  (server/facilitator-client.ts of the xgrain402 and the x402-solana package),
* the server-side header extraction `extractPayment` (src/server/payment-handler.ts),
* the Solana transaction builder `createSolanaPaymentHeader`
  (src/client/transaction-builder.ts),
* the payment-header codec: base64 and JSON serialization as used by
  `createPaymentHeaderFromTransaction` (src/utils) and the envelope decoding
  declared by `PaymentHeaderSchema` (src/types/x402-protocol.ts).
-/

/-! ## IEEE-754 double model (exact, as dyadic rationals)

JavaScript `number` values in the range used by the SDK are binary64 floats,
i.e. rationals `m * 2^e` with `|m| < 2^53`.  All operations below are exact
integer computations; rounding is round-to-nearest, ties-to-even, which is the
IEEE-754 default used by JS multiplication, division and number literals.
The model covers the normal range (no subnormals, infinities or NaN), which
contains every value the amount codec manipulates. -/

/-- Fuel-driven floor of the base-2 logarithm: `log2fuel f n = ⌊log₂ n⌋`
whenever `n ≤ 2 ^ f` and `n ≥ 1`. -/
def log2fuel : Nat → Nat → Nat
  | 0, _ => 0
  | f + 1, n => if n ≤ 1 then 0 else log2fuel f (n / 2) + 1

/-- Floor of the base-2 logarithm of a positive natural number. -/
def natLog2 (n : Nat) : Nat := log2fuel n n

/-- Decide `2 ^ e ≤ a / b` for positive naturals `a`, `b` and an integer
exponent `e`, using only integer arithmetic. -/
def twoPowLE (e : Int) (a b : Nat) : Bool :=
  if 0 ≤ e then b * 2 ^ e.toNat ≤ a else b ≤ a * 2 ^ (-e).toNat

/-- The binade exponent of `a / b` (for `a, b > 0`): the unique `e` with
`2 ^ e ≤ a / b < 2 ^ (e + 1)`.  The candidate `c` differs from `e` by at most
one, so checking `c + 1`, `c`, `c - 1` in order finds it. -/
def findExpNat (a b : Nat) : Int :=
  let c : Int := (natLog2 a : Int) - (natLog2 b : Int)
  if twoPowLE (c + 1) a b then c + 1
  else if twoPowLE c a b then c
  else c - 1

/-- A dyadic rational `m * 2 ^ e`: the exact value of a binary64 float. -/
structure Dyadic where
  m : Int
  e : Int
deriving DecidableEq

/-- Round the positive rational `a / b` to the nearest binary64 value
(round-to-nearest, ties-to-even), returned with a 53-bit significand. -/
def roundPosRat (a b : Nat) : Dyadic :=
  let e := findExpNat a b
  let nd : Nat × Nat :=
    if 0 ≤ 52 - e then (a * 2 ^ (52 - e).toNat, b) else (a, b * 2 ^ (e - 52).toNat)
  let fl := nd.1 / nd.2
  let r := nd.1 % nd.2
  let m : Nat :=
    if 2 * r < nd.2 then fl
    else if nd.2 < 2 * r then fl + 1
    else if fl % 2 = 0 then fl else fl + 1
  ⟨(m : Int), e - 52⟩

/-- Round the rational `a / b` (with `b > 0`) to the nearest binary64 value. -/
def roundRat (a : Int) (b : Nat) : Dyadic :=
  if a = 0 then ⟨0, 0⟩
  else if 0 < a then roundPosRat a.toNat b
  else
    let d := roundPosRat (-a).toNat b
    ⟨-d.m, d.e⟩

/-- Round the exact product `m * 2 ^ e` to the nearest binary64 value. -/
def roundDyadic (m e : Int) : Dyadic :=
  if 0 ≤ e then roundRat (m * 2 ^ e.toNat) 1 else roundRat m (2 ^ (-e).toNat)

/-- IEEE-754 double multiplication: exact product, then one rounding. -/
def Dyadic.mul (x y : Dyadic) : Dyadic := roundDyadic (x.m * y.m) (x.e + y.e)

/-- IEEE-754 double division (for a divisor with positive significand):
exact quotient, then one rounding. -/
def Dyadic.div (x y : Dyadic) : Dyadic :=
  let ed := x.e - y.e
  if 0 ≤ ed then roundRat (x.m * 2 ^ ed.toNat) y.m.toNat
  else roundRat x.m (y.m.toNat * 2 ^ (-ed).toNat)

/-- `Math.floor` on a binary64 value (exact). -/
def Dyadic.floor (x : Dyadic) : Int :=
  if 0 ≤ x.e then x.m * 2 ^ x.e.toNat else Int.fdiv x.m (2 ^ (-x.e).toNat)

/-- Value equality of two dyadic representations (JS `===` on the numbers). -/
def Dyadic.sameVal (x y : Dyadic) : Bool :=
  x.m * 2 ^ (x.e - min x.e y.e).toNat = y.m * 2 ^ (y.e - min x.e y.e).toNat

/-- The binary64 value denoted by the decimal literal `a / b` in JS source
(JS number literals are correctly rounded). -/
def numberLit (a : Int) (b : Nat) : Dyadic := roundRat a b

/-- `Math.pow(10, d)`: correctly rounded power of ten (exact for `d ≤ 22`). -/
def mathPow10 (d : Nat) : Dyadic := roundRat (10 ^ d) 1

/-- `toAtomicUnits(amount, decimals)` from src/utils (both the x402-solana and
the xgrain402 variant):
`BigInt(Math.floor(amount * Math.pow(10, decimals)))`.
The multiplication is double multiplication; `Math.floor` and the conversion
to `BigInt` are exact. -/
def toAtomicUnits (amount : Dyadic) (decimals : Nat) : Int :=
  (amount.mul (mathPow10 decimals)).floor

/-- `fromAtomicUnits(atomicUnits, decimals)` from src/utils:
`Number(atomicUnits) / Math.pow(10, decimals)`.
`Number` rounds the big integer to a double, then double division rounds the
quotient. -/
def fromAtomicUnits (atomicUnits : Int) (decimals : Nat) : Dyadic :=
  (roundRat atomicUnits 1).div (mathPow10 decimals)

/-! ## Protocol data model (src/types/x402-protocol.ts) -/

/-- The `extra` record of a payment requirement; the SDK only ever reads its
`feePayer` field. -/
structure ReqExtra where
  feePayer : Option String
deriving DecidableEq

/-- `PaymentRequirementsSchema` (src/types/x402-protocol.ts): a server-issued
payment requirement.  Optional schema fields are `Option`s. -/
structure PaymentRequirements where
  scheme : String
  network : String
  asset : Option String
  maxAmountRequired : String
  payTo : String
  resource : Option String
  description : Option String
  mimeType : Option String
  maxTimeoutSeconds : Option Nat
  extra : Option ReqExtra
deriving DecidableEq

/-- The parsed body of a 402 response (`x402Response`): `accepts` is `none`
when the field is missing (the interceptor then substitutes `[]`). -/
structure X402Response where
  x402Version : Nat
  accepts : Option (List PaymentRequirements)
deriving DecidableEq

/-- An HTTP response as the interceptor observes it: a status code and the
result of `response.json()` interpreted as an `x402Response` (`none` when the
body does not parse). -/
structure Response where
  status : Nat
  x402Body : Option X402Response
deriving DecidableEq

/-- A request as issued by the interceptor: method, body and header list. -/
structure RequestInit where
  method : Option String
  body : Option String
  headers : List (String × String)
deriving DecidableEq

/-! ## Decimal string parsing (JS `BigInt(string)`) -/

/-- Whether a character is a decimal digit. -/
def isDigitChar (c : Char) : Bool := 48 ≤ c.toNat && c.toNat ≤ 57

/-- The value of a list of decimal digit characters, most significant first. -/
def digitsToNat (l : List Char) : Nat :=
  l.foldl (fun acc c => acc * 10 + (c.toNat - 48)) 0

/-- JS `BigInt(string)` on decimal strings: optional sign followed by digits;
the empty string denotes `0`; anything else throws (`none`).  (Whitespace
trimming and the `0x`/`0o`/`0b` prefixes of the full JS grammar are not
modelled; requirement amounts are plain decimal strings.) -/
def parseBigInt (s : String) : Option Int :=
  match s.toList with
  | [] => some 0
  | '-' :: rest =>
      if rest ≠ [] ∧ rest.all isDigitChar then some (-(digitsToNat rest : Int)) else none
  | '+' :: rest =>
      if rest ≠ [] ∧ rest.all isDigitChar then some (digitsToNat rest : Int) else none
  | l => if l.all isDigitChar then some (digitsToNat l : Int) else none

/-! ## Payment interceptor (src/client/payment-interceptor.ts) -/

/-- The failure modes of `createPaymentFetch` (each is a thrown `Error` in the
source; `buildFailure` propagates a rejection of the transaction builder). -/
inductive InterceptError
  | invalidBody
  | noSuitableRequirement
  | invalidAmountString
  | amountExceeded
  | buildFailure (msg : String)
deriving DecidableEq

/-- The predicate of the requirement selection (payment-interceptor.ts lines
29-33): `req.scheme === "exact"` and the network is `solana-devnet` or
`solana`.  The supported pair is hardcoded; no configuration reaches it. -/
def suitableRequirement (req : PaymentRequirements) : Bool :=
  req.scheme == "exact" &&
    (req.network == "solana-devnet" || req.network == "solana")

/-- `parsedPaymentRequirements.find(...)`: the first suitable requirement. -/
def selectRequirement (accepts : List PaymentRequirements) :
    Option PaymentRequirements :=
  accepts.find? suitableRequirement

/-- Selection as the specification words it: walk the `accepts` list in
server-provided order and return the first entry satisfying the predicate. -/
def firstMatchSpec : List PaymentRequirements → Option PaymentRequirements
  | [] => none
  | r :: rs => if suitableRequirement r then some r else firstMatchSpec rs

/-- The header update of the retried request: object spread keeps one entry
per key, with `X-PAYMENT` and `Access-Control-Expose-Headers` overriding any
preexisting entry of the same name. -/
def withPaymentHeaders (hs : List (String × String)) (paymentHeader : String) :
    List (String × String) :=
  (hs.filter fun p =>
      p.1 != "X-PAYMENT" && p.1 != "Access-Control-Expose-Headers") ++
    [("X-PAYMENT", paymentHeader),
     ("Access-Control-Expose-Headers", "X-PAYMENT-RESPONSE")]

/-- The outcome of one interceptor run: the value returned (or the error
thrown), together with the requests issued to the endpoint, in order. -/
structure InterceptResult where
  result : Except InterceptError Response
  calls : List RequestInit

/-- The amount-cap guard of the interceptor (payment-interceptor.ts line 44):
`maxValue > BigInt(0) && BigInt(selectedRequirements.maxAmountRequired) >
maxValue`.  The JS `&&` short-circuits, so the amount string is parsed (and
can throw) only when a cap is set. -/
def amountCheck (maxValue : Int) (selectedRequirements : PaymentRequirements) :
    Except InterceptError Unit :=
  if 0 < maxValue then
    match parseBigInt selectedRequirements.maxAmountRequired with
    | none => .error .invalidAmountString
    | some amount =>
        if maxValue < amount then .error .amountExceeded else .ok ()
  else .ok ()

/-- `createPaymentFetch` (src/client/payment-interceptor.ts): issue the
request; pass non-402 responses through; on 402 parse the body, select the
first suitable requirement, enforce the optional amount cap (`maxValue > 0`
short-circuits the JS `&&`, so the amount string is only parsed when a cap is
set), delegate to the transaction builder, and reissue the request once with
the payment headers attached, returning that second response unconditionally.
The endpoint is abstracted as a function `respond` from requests to
responses, and the builder as a function from the selected requirement to a
header or an error. -/
def paymentFetch (respond : RequestInit → Response)
    (builder : PaymentRequirements → Except String String)
    (maxValue : Int) (init : RequestInit) : InterceptResult :=
  if (respond init).status ≠ 402 then ⟨.ok (respond init), [init]⟩
  else
    match (respond init).x402Body with
    | none => ⟨.error .invalidBody, [init]⟩
    | some rawResponse =>
      match selectRequirement (rawResponse.accepts.getD []) with
      | none => ⟨.error .noSuitableRequirement, [init]⟩
      | some selectedRequirements =>
        match amountCheck maxValue selectedRequirements with
        | .error e => ⟨.error e, [init]⟩
        | .ok _ =>
          match builder selectedRequirements with
          | .error msg => ⟨.error (.buildFailure msg), [init]⟩
          | .ok paymentHeader =>
            ⟨.ok (respond { init with headers := withPaymentHeaders init.headers paymentHeader }),
             [init, { init with headers := withPaymentHeaders init.headers paymentHeader }]⟩

/-! ## Client construction (src/client/index.ts) -/

/-- `getDefaultRpcUrl` (src/utils): default RPC endpoint per Solana network;
any other network throws. -/
def getDefaultRpcUrl (network : String) : Except String String :=
  if network = "solana" then .ok "https://api.mainnet-beta.solana.com"
  else if network = "solana-devnet" then .ok "https://api.devnet.solana.com"
  else .error "Unexpected network"

/-- The configuration surface of `XGrainClient` that the constructor reads
(the wallet is opaque and flows to the builder unchanged). -/
structure XGrainClientConfig where
  network : String
  rpcUrl : Option String
  maxPaymentAmount : Option Int
deriving DecidableEq

/-- The state the constructor fixes: the RPC URL handed to the transaction
builder and the amount cap handed to `createPaymentFetch`. -/
structure XGrainClientState where
  rpcUrl : String
  maxValue : Int
deriving DecidableEq

/-- The `XGrainClient` constructor: `config.rpcUrl || getDefaultRpcUrl
(config.network)` (JS `||`: an empty string falls back to the default) and
`config.maxPaymentAmount || BigInt(0)`.  The configured network is consulted
for nothing else. -/
def mkXGrainClient (config : XGrainClientConfig) : Except String XGrainClientState :=
  match config.rpcUrl with
  | some url =>
      if url ≠ "" then .ok ⟨url, config.maxPaymentAmount.getD 0⟩
      else (getDefaultRpcUrl config.network).map (⟨·, config.maxPaymentAmount.getD 0⟩)
  | none => (getDefaultRpcUrl config.network).map (⟨·, config.maxPaymentAmount.getD 0⟩)

/-! ## Facilitator client (server/facilitator-client.ts, both variants) -/

/-- The `extra` record of a `/supported` capability entry. -/
structure SupportedKindExtra where
  feePayer : Option String
deriving DecidableEq

/-- One entry of the facilitator's `/supported` capability list. -/
structure SupportedPaymentKind where
  network : String
  scheme : String
  extra : Option SupportedKindExtra
deriving DecidableEq

/-- The `/supported` response body; `kinds` is optional (`kinds?.find` in the
source). -/
structure SupportedKindsResponse where
  kinds : Option (List SupportedPaymentKind)
deriving DecidableEq

/-- The outcome of `fetch(facilitatorUrl + "/supported")` as the client
observes it: `response.ok`, and the parsed JSON body (`none` when
`response.json()` rejects). -/
structure SupportedFetchResult where
  ok : Bool
  jsonBody : Option SupportedKindsResponse
deriving DecidableEq

/-- The fee-payer lookup both variants perform on the parsed body:
`supportedData.kinds?.find(kind => kind.network === network && kind.scheme
=== "exact")?.extra?.feePayer`. -/
def lookupFeePayer (res : SupportedFetchResult) (network : String) : Option String :=
  res.jsonBody.bind fun supportedData =>
    (((supportedData.kinds.getD []).find? fun kind =>
        kind.network == network && kind.scheme == "exact").bind
      (·.extra)).bind (·.feePayer)

/-- `FacilitatorClient.getFeePayer` of the xgrain402 package (part_007): any
failure — non-ok status, unparsable body, or a missing network/scheme entry
or fee payer (JS `!` also rejects an empty string) — throws. -/
def getFeePayer (res : SupportedFetchResult) (network : String) :
    Except String String :=
  if !res.ok then .error "Facilitator /supported returned an error status"
  else
    match res.jsonBody with
    | none => .error "Failed to parse /supported response"
    | some _ =>
      match lookupFeePayer res network with
      | some feePayer =>
          if feePayer = "" then
            .error "Facilitator does not support network with scheme exact or feePayer not provided"
          else .ok feePayer
      | none =>
          .error "Facilitator does not support network with scheme exact or feePayer not provided"

/-- The hardcoded fallback fee payer of the legacy variant. -/
def fallbackFeePayer : String := "2wKupLR9q6wXYppw8Gr2NvWxKBUqm4PPJKkQfoxHDBg4"

/-- `FacilitatorClient.getFeePayer` of the legacy x402-solana package
(part_006): the whole body is wrapped in try/catch, every failure path —
non-ok status, unparsable body, missing entry or fee payer — falls back to
the hardcoded address, and the function never throws. -/
def getFeePayerLegacy (res : SupportedFetchResult) (network : String) : String :=
  if !res.ok then fallbackFeePayer
  else
    match res.jsonBody with
    | none => fallbackFeePayer
    | some _ =>
      match lookupFeePayer res network with
      | some feePayer => if feePayer = "" then fallbackFeePayer else feePayer
      | none => fallbackFeePayer

/-! ## Server-side header extraction (src/server/payment-handler.ts) -/

/-- A header value in a plain headers object:
`string | string[]` (`undefined` is the absence of the binding). -/
inductive HeaderValue
  | single (s : String)
  | multi (values : List String)
deriving DecidableEq

/-- JS truthiness of `string | string[] | undefined`: `undefined` and the
empty string are falsy; every array (even an empty one) is truthy. -/
def isTruthyHeaderValue : Option HeaderValue → Bool
  | none => false
  | some (.single s) => !(s == "")
  | some (.multi _) => true

/-- `extractPayment` on a plain headers object (Express/Fastify style):
`headers["X-PAYMENT"] || headers["x-payment"]`, then
`Array.isArray(xPayment) ? xPayment[0] || null : xPayment || null`.
The two property accesses are exact, case-sensitive key lookups. -/
def extractPayment (headers : List (String × HeaderValue)) : Option String :=
  let v1 := headers.lookup "X-PAYMENT"
  let v2 := headers.lookup "x-payment"
  let xPayment := if isTruthyHeaderValue v1 then v1 else v2
  match xPayment with
  | some (.multi values) =>
    match values.head? with
    | some first => if first = "" then none else some first
    | none => none
  | some (.single s) => if s = "" then none else some s
  | none => none

/-- ASCII lowercasing of a character (the byte-lowercase used for header
name comparison). -/
def lowerChar (c : Char) : Char :=
  if 65 ≤ c.toNat ∧ c.toNat ≤ 90 then Char.ofNat (c.toNat + 32) else c

/-- ASCII lowercasing of a header name. -/
def lowerAscii (s : String) : String := String.mk (s.toList.map lowerChar)

/-- Joining of multiple header values, as `Headers.get` combines them. -/
def joinCommaSpace : List String → String
  | [] => ""
  | [v] => v
  | v :: rest => v ++ ", " ++ joinCommaSpace rest

/-- `Headers.get` of the Fetch API: case-insensitive name match; absent names
yield `null`, multiple values are joined with a comma and a space. -/
def headersGet (entries : List (String × String)) (name : String) : Option String :=
  match (entries.filter fun p => lowerAscii p.1 == lowerAscii name).map (·.2) with
  | [] => none
  | values => some (joinCommaSpace values)

/-- `extractPayment` on a Fetch-API `Headers` object:
`headers.get("X-PAYMENT") || headers.get("x-payment")` (the second operand is
returned as-is when the first is `null` or empty). -/
def extractPaymentHeaders (entries : List (String × String)) : Option String :=
  match headersGet entries "X-PAYMENT" with
  | some s => if s = "" then headersGet entries "x-payment" else some s
  | none => headersGet entries "x-payment"

/-! ## Concrete fixtures used by the witnesses -/

/-- A well-formed mainnet requirement. -/
def reqSolana : PaymentRequirements :=
  { scheme := "exact", network := "solana",
    asset := some "EPjFWdd5AufqSSqeM2qN1xzybapC8G4wEGGkZwyTDt1v",
    maxAmountRequired := "2500000", payTo := "Treasury1111",
    resource := some "https://api.example.com/chat", description := none,
    mimeType := none, maxTimeoutSeconds := some 300,
    extra := some { feePayer := some "FeePayer1111" } }

/-- The same requirement on a network the interceptor does not support. -/
def reqBase : PaymentRequirements := { reqSolana with network := "base" }

/-- The same requirement on the devnet network. -/
def reqDevnet : PaymentRequirements := { reqSolana with network := "solana-devnet" }

/-- The same requirement quoting an amount above the example cap. -/
def reqBig : PaymentRequirements := { reqSolana with maxAmountRequired := "20000000" }

/-- A concrete original request. -/
def initEx : RequestInit :=
  { method := some "POST", body := some "data",
    headers := [("Content-Type", "application/json")] }

/-- A builder that always produces a header. -/
def builderEx : PaymentRequirements → Except String String :=
  fun _ => .ok "SIGNEDHDR"

/-- An endpoint that never charges. -/
def respondOkEx : RequestInit → Response := fun _ => { status := 200, x402Body := none }

/-- An endpoint whose 402 offer names only an unsupported network. -/
def respond402NoMatch : RequestInit → Response :=
  fun _ => { status := 402, x402Body := some { x402Version := 1, accepts := some [reqBase] } }

/-- An endpoint whose 402 offer names the devnet network. -/
def respond402Devnet : RequestInit → Response :=
  fun _ => { status := 402, x402Body := some { x402Version := 1, accepts := some [reqDevnet] } }

/-- An endpoint quoting an amount above the example cap. -/
def respond402Big : RequestInit → Response :=
  fun _ => { status := 402, x402Body := some { x402Version := 1, accepts := some [reqBig] } }

/-- An explicit-RPC mainnet client configuration. -/
def cfgMainnetEx : XGrainClientConfig :=
  { network := "solana", rpcUrl := some "http://localhost:8899", maxPaymentAmount := some 5 }

/-- The same configuration pointed at the devnet network. -/
def cfgDevnetEx : XGrainClientConfig := { cfgMainnetEx with network := "solana-devnet" }

/-! ## Solana transaction builder (src/client/transaction-builder.ts) -/

/-- The SPL token program address (`TOKEN_PROGRAM_ID`). -/
def TOKEN_PROGRAM_ID : String := "TokenkegQfeZyiNwAJbNbGKPFXCWuBvf9Ss623VQ5DA"

/-- The Token-2022 program address (`TOKEN_2022_PROGRAM_ID`). -/
def TOKEN_2022_PROGRAM_ID : String := "TokenzQdBNbLqP5VEhdkAS6EPFLC1PHnwqTgn4C2WmSp"

/-- The associated-token program address hardcoded in the builder. -/
def ASSOCIATED_TOKEN_PROGRAM_ID : String := "ATokenGPvbdGVxr1b2hvZbsiqW5xWH25efTNsLJA8knL"

/-- `getAssociatedTokenAddress(mint, owner, false, programId)`: the ATA is a
deterministic function of mint, owner and token program, modelled as a
tagged concatenation. -/
def deriveAta (mint owner tokenProgram : String) : String :=
  "ata(" ++ mint ++ "," ++ owner ++ "," ++ tokenProgram ++ ")"

/-- The mint account as read over RPC: its owning program and the decimals
`getMint` reports. -/
structure MintAccount where
  owner : String
  decimals : Nat
deriving DecidableEq

/-- The chain data the builder reads over RPC: the mint account (`none` when
the account does not exist), existence of the source and destination ATAs,
and the latest blockhash. -/
structure SolanaChainState where
  mintAccount : Option MintAccount
  sourceAtaExists : Bool
  destAtaExists : Bool
  blockhash : String
deriving DecidableEq

/-- The wallet adapter: an optional `publicKey`, an optional `address`, and
whether `signTransaction` is a function. -/
structure WalletAdapter where
  publicKey : Option String
  address : Option String
  canSign : Bool
deriving DecidableEq

/-- JS truthiness of `string | undefined`. -/
def isTruthyStr : Option String → Bool
  | none => false
  | some s => !(s == "")

/-- The wallet address resolution (transaction-builder.ts line 39):
`wallet?.publicKey?.toString() || wallet?.address`. -/
def resolveWalletAddress (wallet : WalletAdapter) : Option String :=
  if isTruthyStr wallet.publicKey then wallet.publicKey else wallet.address

/-- The instructions the builder can emit. -/
inductive SolInstruction
  | computeUnitLimit (units : Nat)
  | computeUnitPrice (microLamports : Nat)
  | createAta (payer ata owner mint tokenProgram : String)
  | transferChecked (source mint destination owner : String)
      (amount : Int) (decimals : Nat) (tokenProgram : String)
deriving DecidableEq

/-- The compiled v0 message of the built transaction, after the user wallet
signed it: fee payer, blockhash, ordered instruction list and the signing
wallet address. -/
structure BuiltTransaction where
  payerKey : String
  recentBlockhash : String
  instructions : List SolInstruction
  signedBy : String
deriving DecidableEq

/-- The failure modes of the builder (each a thrown `Error` in the source;
`mintAccountNotFound` and `mintOwnerMismatch` are the failures `getMint`
raises). -/
inductive BuildError
  | missingFeePayer
  | missingWalletAddress
  | missingPayTo
  | missingAsset
  | mintAccountNotFound
  | mintOwnerMismatch
  | sourceAccountNotFound
  | invalidAmount
  | walletCannotSign
deriving DecidableEq

/-- The token-program selection (transaction-builder.ts lines 72-76): pick
Token-2022 exactly when the mint account is owned by it, else the classic
token program; `getMint` then fails when the owner matches neither.

`createSolanaPaymentHeader` (src/client/transaction-builder.ts), up to
the final header encoding: validate fee payer, wallet address and `payTo`;
push the two ComputeBudget instructions first (the facilitator requires them
in positions 0 and 1); read the mint account and pick the token program from
its owner (`getMint` then fails when the account is missing or owned by
neither token program); derive both ATAs; require the source ATA to exist;
append a creation instruction for the destination ATA, funded by the fee
payer, exactly when it is absent; append the checked transfer of
`BigInt(maxAmountRequired)` with the mint's decimals; compile the message
with the fee payer as `payerKey` and have the wallet sign. -/
def tokenProgramFor (mintOwner : String) : String :=
  if mintOwner = TOKEN_2022_PROGRAM_ID then TOKEN_2022_PROGRAM_ID
  else TOKEN_PROGRAM_ID

/-- The instruction list the builder assembles, in its fixed order: the two
ComputeBudget instructions, then — exactly when the destination ATA is
absent — its creation instruction funded by the fee payer, then the checked
transfer. -/
def builtInstructions (feePayer payTo asset walletAddress programId : String)
    (destAtaExists : Bool) (amount : Int) (decimals : Nat) : List SolInstruction :=
  [.computeUnitLimit 40000, .computeUnitPrice 1] ++
  (if ¬ destAtaExists then
    [.createAta feePayer (deriveAta asset payTo programId) payTo asset programId]
   else []) ++
  [.transferChecked (deriveAta asset walletAddress programId) asset
    (deriveAta asset payTo programId) walletAddress amount decimals programId]

/-- `createSolanaPaymentHeader` continued: the full build pipeline. -/
def createSolanaPaymentHeader (wallet : WalletAdapter) (x402Version : Nat)
    (paymentRequirements : PaymentRequirements) (chain : SolanaChainState) :
    Except BuildError BuiltTransaction :=
  match paymentRequirements.extra.bind (·.feePayer) with
  | none => .error .missingFeePayer
  | some feePayer =>
    if feePayer = "" then .error .missingFeePayer
    else
      match resolveWalletAddress wallet with
      | none => .error .missingWalletAddress
      | some walletAddress =>
        if walletAddress = "" then .error .missingWalletAddress
        else if paymentRequirements.payTo = "" then .error .missingPayTo
        else
          match paymentRequirements.asset with
          | none => .error .missingAsset
          | some asset =>
            if asset = "" then .error .missingAsset
            else
              match chain.mintAccount with
              | none => .error .mintAccountNotFound
              | some mintAcct =>
                if mintAcct.owner ≠ tokenProgramFor mintAcct.owner then
                  .error .mintOwnerMismatch
                else if ¬ chain.sourceAtaExists then .error .sourceAccountNotFound
                else
                  match parseBigInt paymentRequirements.maxAmountRequired with
                  | none => .error .invalidAmount
                  | some amount =>
                    if ¬ wallet.canSign then .error .walletCannotSign
                    else
                      .ok { payerKey := feePayer,
                            recentBlockhash := chain.blockhash,
                            instructions :=
                              builtInstructions feePayer paymentRequirements.payTo
                                asset walletAddress (tokenProgramFor mintAcct.owner)
                                chain.destAtaExists amount mintAcct.decimals,
                            signedBy := walletAddress }

/-- A wallet fixture with a public key that can sign. -/
def walletEx : WalletAdapter :=
  { publicKey := some "UserPubkey1111", address := none, canSign := true }

/-- A chain fixture: SPL-token mint with 6 decimals, existing source ATA,
absent destination ATA. -/
def chainEx : SolanaChainState :=
  { mintAccount := some { owner := TOKEN_PROGRAM_ID, decimals := 6 },
    sourceAtaExists := true, destAtaExists := false, blockhash := "Blockhash1111" }

/-- The chain fixture without the sender's token account. -/
def chainNoSourceEx : SolanaChainState := { chainEx with sourceAtaExists := false }

/-! ## Header codec: base64 (`Buffer.toString("base64")` / `Buffer.from(s, "base64")`)

Bytes are naturals below 256; base64 text is a list of characters. -/

/-- The base64 alphabet. -/
def b64Chars : List Char :=
  "ABCDEFGHIJKLMNOPQRSTUVWXYZabcdefghijklmnopqrstuvwxyz0123456789+/".toList

/-- The character of a six-bit group. -/
def b64Char (i : Nat) : Char := b64Chars.getD i 'A'

/-- The six-bit value of an alphabet character (`none` for anything else,
including the padding `=`). -/
def b64Index (c : Char) : Option Nat := b64Chars.findIdx? (fun x => x == c)

/-- Standard base64 encoding with padding, three input bytes per four output
characters. -/
def base64Encode : List Nat → List Char
  | [] => []
  | [a] => [b64Char (a / 4), b64Char (a % 4 * 16), '=', '=']
  | [a, b] => [b64Char (a / 4), b64Char (a % 4 * 16 + b / 16), b64Char (b % 16 * 4), '=']
  | a :: b :: c :: rest =>
      b64Char (a / 4) :: b64Char (a % 4 * 16 + b / 16) ::
      b64Char (b % 16 * 4 + c / 64) :: b64Char (c % 64) :: base64Encode rest

/-- Base64 decoding of canonically padded text: four characters per chunk,
padding only in a final chunk; anything else is rejected. -/
def base64Decode : List Char → Option (List Nat)
  | [] => some []
  | c1 :: c2 :: c3 :: c4 :: rest =>
    match b64Index c1, b64Index c2 with
    | some i1, some i2 =>
      if c3 = '=' then
        if c4 = '=' ∧ rest = [] then some [i1 * 4 + i2 / 16] else none
      else
        match b64Index c3 with
        | some i3 =>
          if c4 = '=' then
            if rest = [] then some [i1 * 4 + i2 / 16, i2 % 16 * 16 + i3 / 4] else none
          else
            match b64Index c4 with
            | some i4 =>
              (base64Decode rest).map
                (fun bsRest =>
                  (i1 * 4 + i2 / 16) :: (i2 % 16 * 16 + i3 / 4) :: (i3 % 4 * 64 + i4) :: bsRest)
            | none => none
        | none => none
    | _, _ => none
  | _ => none

/-! ## Decimal integer printing and parsing (JSON number layer) -/

/-- Fuel-driven decimal printer: pushes the digits of `n` (most significant
first) in front of `acc`. -/
def natToCharsAux : Nat → Nat → List Char → List Char
  | 0, _, acc => acc
  | f + 1, n, acc =>
      if n = 0 then acc
      else natToCharsAux f (n / 10) (Char.ofNat (48 + n % 10) :: acc)

/-- The decimal representation of a natural number. -/
def natToChars (n : Nat) : List Char :=
  if n = 0 then ['0'] else natToCharsAux n n []

/-- Fuel-driven digit-run consumer: extends `acc` with each leading decimal
digit and stops at the first non-digit. -/
def parseNatAux : Nat → List Char → Nat → Nat × List Char
  | 0, l, acc => (acc, l)
  | _ + 1, [], acc => (acc, [])
  | f + 1, c :: rest, acc =>
      if isDigitChar c then parseNatAux f rest (acc * 10 + (c.toNat - 48))
      else (acc, c :: rest)

/-- Parse a JSON natural-number literal: at least one digit, and the number
may not continue with a fraction or exponent (which this model rejects
rather than interprets; the envelope version is an integer). -/
def parseNatPart (l : List Char) : Option (Nat × List Char) :=
  match l with
  | [] => none
  | c :: rest =>
    if isDigitChar c then
      match parseNatAux rest.length rest (c.toNat - 48) with
      | (n, r) =>
        match r with
        | [] => some (n, [])
        | d :: _ => if d = '.' ∨ d = 'e' ∨ d = 'E' then none else some (n, r)
    else none

/-- Parse a JSON integer literal with an optional leading minus. -/
def parseIntLit (l : List Char) : Option (Int × List Char) :=
  match l with
  | [] => none
  | c :: rest =>
    if c = '-' then (parseNatPart rest).map (fun p => (-(p.1 : Int), p.2))
    else (parseNatPart l).map (fun p => ((p.1 : Int), p.2))

/-- A digit-run boundary: the next character, if any, is not a digit. -/
def digitBoundary (rest : List Char) : Prop :=
  match rest with
  | [] => True
  | c :: _ => isDigitChar c = false

/-- Whether a character list may legally follow a parsed number. -/
def numBoundary (rest : List Char) : Bool :=
  match rest with
  | [] => true
  | c :: _ => !(isDigitChar c) && !(c == '.') && !(c == 'e') && !(c == 'E')

/-! ## Header codec: JSON layer (`JSON.stringify` / `JSON.parse`) -/

/-- JSON values (numbers restricted to integers, which covers the protocol's
envelope; strings are character lists). -/
inductive Json
  | jnull
  | jbool (b : Bool)
  | jnum (n : Int)
  | jstr (s : List Char)
  | jarr (elems : List Json)
  | jobj (fields : List (List Char × Json))

instance : Inhabited Json := ⟨Json.jnull⟩

/-- JSON insignificant whitespace. -/
def isJsonWs (c : Char) : Bool :=
  c == ' ' || c == '\n' || c == '\t' || c == '\r'

/-- Drop leading JSON whitespace. -/
def skipWs : List Char → List Char
  | [] => []
  | c :: rest => if isJsonWs c then skipWs rest else c :: rest

/-- The value of a two-character escape sequence (`\uXXXX` escapes are not
modelled; the envelope strings contain none). -/
def unescapeChar (e : Char) : Option Char :=
  if e = '"' then some '"'
  else if e = '\\' then some '\\'
  else if e = '/' then some '/'
  else if e = 'n' then some '\n'
  else if e = 't' then some '\t'
  else if e = 'r' then some '\r'
  else if e = 'b' then some (Char.ofNat 8)
  else if e = 'f' then some (Char.ofNat 12)
  else none

/-- Parse the body of a JSON string after its opening quote, returning the
unescaped content and the remainder after the closing quote. -/
def parseStringBody : Nat → List Char → Option (List Char × List Char)
  | 0, _ => none
  | _ + 1, [] => none
  | f + 1, c :: rest =>
    if c = '"' then some ([], rest)
    else if c = '\\' then
      match rest with
      | [] => none
      | e :: rest2 =>
        match unescapeChar e with
        | none => none
        | some ch => (parseStringBody f rest2).map (fun p => (ch :: p.1, p.2))
    else if c.toNat < 32 then none
    else (parseStringBody f rest).map (fun p => (c :: p.1, p.2))

/-- Match an expected literal character sequence. -/
def expectChars : List Char → List Char → Option (List Char)
  | [], rest => some rest
  | e :: es, c :: rest => if c = e then expectChars es rest else none
  | _ :: _, [] => none

mutual

/-- Recursive-descent JSON value parser, fuelled by nesting depth. -/
def parseValue : Nat → List Char → Option (Json × List Char)
  | 0, _ => none
  | f + 1, l =>
    match skipWs l with
    | [] => none
    | c :: rest =>
      if c = 'n' then (expectChars ['u', 'l', 'l'] rest).map (fun r => (Json.jnull, r))
      else if c = 't' then (expectChars ['r', 'u', 'e'] rest).map (fun r => (Json.jbool true, r))
      else if c = 'f' then (expectChars ['a', 'l', 's', 'e'] rest).map (fun r => (Json.jbool false, r))
      else if c = '"' then (parseStringBody f rest).map (fun p => (Json.jstr p.1, p.2))
      else if c = '\x7b' then
        match skipWs rest with
        | d :: r2 =>
          if d = '\x7d' then some (Json.jobj [], r2)
          else (parseMembers f rest).map (fun p => (Json.jobj p.1, p.2))
        | [] => none
      else if c = '[' then
        match skipWs rest with
        | d :: _ =>
          if d = ']' then
            match skipWs rest with
            | _ :: r2 => some (Json.jarr [], r2)
            | [] => none
          else (parseElements f rest).map (fun p => (Json.jarr p.1, p.2))
        | [] => none
      else (parseIntLit (c :: rest)).map (fun p => (Json.jnum p.1, p.2))

/-- Parse the members of a JSON object after its opening brace. -/
def parseMembers : Nat → List Char → Option (List (List Char × Json) × List Char)
  | 0, _ => none
  | f + 1, l =>
    match skipWs l with
    | [] => none
    | c :: rest =>
      if c = '"' then
        match parseStringBody f rest with
        | none => none
        | some (key, r1) =>
          match skipWs r1 with
          | [] => none
          | d :: r2 =>
            if d = ':' then
              match parseValue f r2 with
              | none => none
              | some (v, r3) =>
                match skipWs r3 with
                | [] => none
                | e :: r4 =>
                  if e = ',' then (parseMembers f r4).map (fun p => ((key, v) :: p.1, p.2))
                  else if e = '\x7d' then some ([(key, v)], r4)
                  else none
            else none
      else none

/-- Parse the elements of a JSON array after its opening bracket. -/
def parseElements : Nat → List Char → Option (List Json × List Char)
  | 0, _ => none
  | f + 1, l =>
    match parseValue f l with
    | none => none
    | some (v, r1) =>
      match skipWs r1 with
      | [] => none
      | e :: r2 =>
        if e = ',' then (parseElements f r2).map (fun p => (v :: p.1, p.2))
        else if e = ']' then some ([v], r2)
        else none

end

/-- `JSON.parse`: parse one value and require only whitespace after it. -/
def jsonParse (l : List Char) : Option Json :=
  match parseValue (l.length + 1) l with
  | some (v, rest) => if skipWs rest = [] then some v else none
  | none => none

/-! ## Header codec: envelope encode and decode -/

/-- A character that `JSON.stringify` emits verbatim inside a string literal
(no quote, no backslash, no control character). -/
def jsonSafeChar (c : Char) : Bool :=
  !(c == '"') && !(c == '\\') && !(decide (c.toNat < 32))

/-- Safe and ASCII: the byte-transparent characters of the envelope strings
(base64 text and the scheme/network enum values are all of this kind). -/
def headerSafe (s : List Char) : Bool :=
  s.all fun c => jsonSafeChar c && decide (c.toNat < 128)

/-- `JSON.stringify` of the payment payload object literal of
`createPaymentHeaderFromTransaction` (src/unnamed/part_000): keys in
insertion order, no added whitespace; the interpolated strings are emitted
verbatim, which is exact whenever they need no escaping. -/
def stringifyPaymentPayload (x402Version : Nat)
    (scheme network transactionB64 : List Char) : List Char :=
  "\x7b\"x402Version\":".toList ++ natToChars x402Version ++
  ",\"scheme\":\"".toList ++ scheme ++
  "\",\"network\":\"".toList ++ network ++
  "\",\"payload\":\x7b\"transaction\":\"".toList ++ transactionB64 ++
  "\"\x7d\x7d".toList

/-- Plain ASCII text: every character fits in one byte below 128. -/
def asciiOnly (s : List Char) : Bool := s.all fun c => decide (c.toNat < 128)

/-- The UTF-8 bytes of an ASCII character list (`Buffer.from(json)`). -/
def charsToBytes (s : List Char) : List Nat := s.map (·.toNat)

/-- `createPaymentHeaderFromTransaction` (src/unnamed/part_000 lines
100-122): serialize the signed transaction to base64, wrap it in the
`{x402Version, scheme, network, payload: {transaction}}` JSON envelope, and
base64-encode the JSON text. -/
def createPaymentHeaderFromTransaction (transactionBytes : List Nat)
    (scheme network : List Char) (x402Version : Nat) : List Char :=
  base64Encode
    (charsToBytes
      (stringifyPaymentPayload x402Version scheme network
        (base64Encode transactionBytes)))

/-- Decode a byte list as ASCII text (the envelope JSON is pure ASCII;
non-ASCII bytes are rejected rather than decoded as UTF-8). -/
def bytesToAscii (bs : List Nat) : Option (List Char) :=
  if bs.all (· < 128) then some (bs.map Char.ofNat) else none

/-- The decoded payment envelope, per `PaymentHeaderSchema`
(src/types/x402-protocol.ts): version number, scheme, network, and the
base64 transaction string of the payload. -/
structure PaymentHeaderEnvelope where
  x402Version : Int
  scheme : List Char
  network : List Char
  transaction : List Char
deriving DecidableEq

/-- The network enum of `NetworkSchema` (src/types/x402-protocol.ts). -/
def validNetworks : List String :=
  ["base-sepolia", "base", "avalanche-fuji", "avalanche", "iotex",
   "sei", "sei-testnet", "solana-devnet", "solana"]

/-- Object field lookup (first binding wins, as in a parsed JS object). -/
def jsonField (fields : List (List Char × Json)) (key : String) : Option Json :=
  (fields.find? fun f => f.1 == key.toList).map (·.2)

/-- Modelled from the spec: the header codec's `decode(token) -> envelope`
(spec section 4.3).  The repository serializes the envelope locally but its
decoder runs inside the remote facilitator service, which is not part of
src/; the envelope shape it validates is declared locally by
`PaymentHeaderSchema` (src/types/x402-protocol.ts): `scheme` is the literal
`"exact"`, `network` is drawn from `NetworkSchema`, and `payload` carries a
`transaction` string.  Decoding base64-decodes the token, parses the JSON
text, and validates that schema, rejecting tokens whose outer JSON does not
parse or whose scheme is not `"exact"`. -/
def decodePaymentHeader (token : List Char) : Option PaymentHeaderEnvelope :=
  match base64Decode token with
  | none => none
  | some bytes =>
    match bytesToAscii bytes with
    | none => none
    | some chars =>
      match jsonParse chars with
      | none => none
      | some (Json.jobj fields) =>
        match jsonField fields "x402Version", jsonField fields "scheme",
            jsonField fields "network", jsonField fields "payload" with
        | some (Json.jnum v), some (Json.jstr scheme), some (Json.jstr network),
            some (Json.jobj payloadFields) =>
          if scheme = "exact".toList ∧
              validNetworks.any (fun n => n.toList == network) then
            match jsonField payloadFields "transaction" with
            | some (Json.jstr tx) => some ⟨v, scheme, network, tx⟩
            | _ => none
          else none
        | _, _, _, _ => none
      | some _ => none

/-- The parsed JSON value of the payment envelope. -/
def envelopeJson (v : Nat) (scheme network transactionB64 : List Char) : Json :=
  Json.jobj
    [("x402Version".toList, Json.jnum (v : Int)),
     ("scheme".toList, Json.jstr scheme),
     ("network".toList, Json.jstr network),
     ("payload".toList, Json.jobj [("transaction".toList, Json.jstr transactionB64)])]
/-- Claim C1, counterexample: the round trip fails on the code.  For the valid
human-readable amount `0.29` (the binary64 value denoted by the literal
`0.29`) and decimal count `2`, `toAtomicUnits` returns `28` (the double
product `0.29 * 100` is `28.999999999999996`, and `Math.floor` truncates it),
so `fromAtomicUnits(toAtomicUnits(0.29, 2), 2)` is the double `0.28`, not
`0.29`.  This also refutes the second half of the claim: the conversions are
computed through floating-point arithmetic, not by exact arbitrary-precision
integer arithmetic on decimal strings. -/
theorem c1_roundtrip_counterexample :
    toAtomicUnits (numberLit 29 100) 2 = 28 ∧
    (fromAtomicUnits (toAtomicUnits (numberLit 29 100) 2) 2).sameVal
      (numberLit 29 100) = false ∧
    (fromAtomicUnits (toAtomicUnits (numberLit 29 100) 2) 2).sameVal
      (numberLit 28 100) = true := by
  decide

/-- Claim C1, amended: the conversions are computed through IEEE-754 double
arithmetic on JS numbers, and the round trip
`fromAtomicUnits(toAtomicUnits(a, d), d) == a` holds only when no rounding
occurs in the double computations, as in the spec's own examples:
`toAtomicUnits(2.5, 6) == 2500000` and `fromAtomicUnits(2500000, 6) == 2.5`
(where `2.5` is the exactly representable double `5 * 2⁻¹`).  It fails for
other valid amounts, e.g. `0.29` with `d = 2`. -/
theorem c1_roundtrip_amended :
    toAtomicUnits (numberLit 5 2) 6 = 2500000 ∧
    (fromAtomicUnits 2500000 6).sameVal (numberLit 5 2) = true ∧
    (numberLit 5 2).sameVal ⟨5, -1⟩ = true := by
  decide

/-- Claim C4: on a 402 body, the interceptor selects the first element of the
`accepts` list, in server-provided order, whose scheme is `"exact"` and whose
network is in the supported set; if no element matches it fails with the
no-suitable-requirement error and performs no retry (the only request issued
is the original one). -/
theorem c4_selection_first_match :
    (∀ accepts : List PaymentRequirements,
       selectRequirement accepts = firstMatchSpec accepts) ∧
    (∀ respond builder maxValue init rawResponse,
       respond init = { status := 402, x402Body := some rawResponse } →
       selectRequirement (rawResponse.accepts.getD []) = none →
       paymentFetch respond builder maxValue init =
         ⟨.error .noSuitableRequirement, [init]⟩) := by
  constructor
  · intro accepts
    induction accepts with
    | nil => rfl
    | cons r rs ih =>
      by_cases h : suitableRequirement r
      · rw [selectRequirement, List.find?_cons_of_pos _ h, firstMatchSpec, if_pos h]
      · rw [selectRequirement, List.find?_cons_of_neg _ h, firstMatchSpec, if_neg h]
        exact ih
  · intro respond builder maxValue init rawResponse h hsel
    simp [paymentFetch, h, hsel]

/-- Witness for C4: a 402 offer listing only an unsupported network is
rejected with the no-suitable-requirement error after the single original
call. -/
theorem c4_selection_first_match_witness :
    paymentFetch respond402NoMatch builderEx 0 initEx =
      ⟨.error .noSuitableRequirement, [initEx]⟩ :=
  c4_selection_first_match.2 respond402NoMatch builderEx 0 initEx
    { x402Version := 1, accepts := some [reqBase] } rfl (by decide)

/-- Every run of the interceptor lands in one of three shapes: the first
response passed through, an error after the single original call, or the
second response after exactly one retry carrying the payment headers. -/
theorem paymentFetch_shape (respond : RequestInit → Response)
    (builder : PaymentRequirements → Except String String)
    (maxValue : Int) (init : RequestInit) :
    paymentFetch respond builder maxValue init = ⟨.ok (respond init), [init]⟩ ∨
    (∃ e, paymentFetch respond builder maxValue init = ⟨.error e, [init]⟩) ∨
    (∃ hdr, paymentFetch respond builder maxValue init =
      ⟨.ok (respond { init with headers := withPaymentHeaders init.headers hdr }),
       [init, { init with headers := withPaymentHeaders init.headers hdr }]⟩) := by
  unfold paymentFetch
  repeat' split
  all_goals
    first
    | exact .inl rfl
    | exact .inr (.inl ⟨_, rfl⟩)
    | exact .inr (.inr ⟨_, rfl⟩)

/-- Claim C5: the interceptor makes at most one additional network call.  A
non-402 first response is returned unchanged with zero extra calls; on 402
the original request is reissued exactly once with the same method and body
plus the payment headers attached, and that second response is returned to
the caller whatever its status (a nested 402 is not retried). -/
theorem c5_single_retry :
    (∀ respond builder maxValue init, (respond init).status ≠ 402 →
       paymentFetch respond builder maxValue init = ⟨.ok (respond init), [init]⟩) ∧
    (∀ respond builder maxValue init,
       (paymentFetch respond builder maxValue init).calls.length ≤ 2 ∧
       (paymentFetch respond builder maxValue init).calls.head? = some init ∧
       ∀ second, (paymentFetch respond builder maxValue init).calls = [init, second] →
         second.method = init.method ∧ second.body = init.body ∧
         (∃ hdr, second.headers = withPaymentHeaders init.headers hdr) ∧
         (paymentFetch respond builder maxValue init).result = .ok (respond second)) := by
  constructor
  · intro respond builder maxValue init h
    simp [paymentFetch, if_pos h]
  · intro respond builder maxValue init
    rcases paymentFetch_shape respond builder maxValue init with h | ⟨e, h⟩ | ⟨hdr, h⟩ <;>
      rw [h]
    · exact ⟨by simp, rfl, by simp⟩
    · exact ⟨by simp, rfl, by simp⟩
    · refine ⟨by simp, rfl, ?_⟩
      intro second hsec
      have h2 : { init with headers := withPaymentHeaders init.headers hdr } = second := by
        simpa using hsec
      subst h2
      exact ⟨rfl, rfl, ⟨hdr, rfl⟩, rfl⟩

/-- Witness for C5: the never-charging endpoint is passed through unchanged
with a single call. -/
theorem c5_single_retry_witness :
    paymentFetch respondOkEx builderEx 0 initEx = ⟨.ok (respondOkEx initEx), [initEx]⟩ :=
  c5_single_retry.1 respondOkEx builderEx 0 initEx (by decide)

/-- Claim C6: when a positive cap is configured and the selected
requirement's `maxAmountRequired` parses to an amount above the cap, the
interceptor fails with the amount-exceeded error after the single original
call; the conclusion holds for every builder, so the transaction builder is
never invoked and nothing is signed. -/
theorem c6_amount_cap_before_build :
    ∀ respond builder maxValue init rawResponse req amount,
      respond init = { status := 402, x402Body := some rawResponse } →
      selectRequirement (rawResponse.accepts.getD []) = some req →
      0 < maxValue →
      parseBigInt req.maxAmountRequired = some amount →
      maxValue < amount →
      paymentFetch respond builder maxValue init =
        ⟨.error .amountExceeded, [init]⟩ := by
  intro respond builder maxValue init rawResponse req amount h hsel hpos hparse hlt
  simp [paymentFetch, h, hsel, amountCheck, if_pos hpos, hparse, if_pos hlt]

/-- Witness for C6: the spec's example — a quote of 20000000 against a cap of
10000000 — is rejected with the amount-exceeded error before any build. -/
theorem c6_amount_cap_before_build_witness :
    paymentFetch respond402Big builderEx 10000000 initEx =
      ⟨.error .amountExceeded, [initEx]⟩ :=
  c6_amount_cap_before_build respond402Big builderEx 10000000 initEx
    { x402Version := 1, accepts := some [reqBig] } reqBig 20000000
    rfl (by decide) (by decide) (by decide) (by decide)

/-- Claim C3, counterexample: the legacy x402-solana `FacilitatorClient.
getFeePayer` does not raise on an unsupported network — a facilitator whose
`/supported` list has no entry for the requested network makes it return the
hardcoded fallback fee-payer address, silently. -/
theorem c3_hardcoded_fallback_counterexample :
    getFeePayerLegacy { ok := true, jsonBody := some { kinds := some [] } }
      "solana" = "2wKupLR9q6wXYppw8Gr2NvWxKBUqm4PPJKkQfoxHDBg4" := rfl

/-- Claim C3, amended: the claim holds of the xgrain402 variant — whenever the
`/supported` lookup yields no usable fee payer (non-ok response, unparsable
body, or no matching network/scheme entry with a non-empty `extra.feePayer`),
`getFeePayer` raises and returns no address, and on success it returns
exactly the discovered address.  The legacy x402-solana variant instead
swallows every such failure and returns the hardcoded fallback address. -/
theorem c3_feepayer_failure_modes :
    (∀ res network,
       res.ok = false ∨ res.jsonBody = none ∨
         lookupFeePayer res network = none ∨ lookupFeePayer res network = some "" →
       (∃ msg, getFeePayer res network = .error msg) ∧
         getFeePayerLegacy res network = fallbackFeePayer) ∧
    (∀ res network feePayer,
       res.ok = true → lookupFeePayer res network = some feePayer → feePayer ≠ "" →
       getFeePayer res network = .ok feePayer ∧
         getFeePayerLegacy res network = feePayer) := by
  constructor
  · intro res network h
    rcases hok : res.ok
    · simp [getFeePayer, getFeePayerLegacy, hok]
    · rcases hb : res.jsonBody with _ | body
      · simp [getFeePayer, getFeePayerLegacy, hok, hb]
      · rcases h with h | h | h | h
        · simp [hok] at h
        · simp [hb] at h
        · simp [getFeePayer, getFeePayerLegacy, hok, hb, h]
        · simp [getFeePayer, getFeePayerLegacy, hok, hb, h]
  · intro res network feePayer hok hl hne
    rcases hb : res.jsonBody with _ | body
    · rw [lookupFeePayer, hb] at hl
      exact absurd hl (by simp)
    · simp [getFeePayer, getFeePayerLegacy, hok, hb, hl, hne]

/-- Witness for C3: an empty capability list makes the xgrain402 variant
raise and the legacy variant answer the fallback address. -/
theorem c3_feepayer_failure_modes_witness :
    (∃ msg, getFeePayer { ok := true, jsonBody := some { kinds := some [] } }
        "solana" = .error msg) ∧
      getFeePayerLegacy { ok := true, jsonBody := some { kinds := some [] } }
        "solana" = fallbackFeePayer :=
  c3_feepayer_failure_modes.1 { ok := true, jsonBody := some { kinds := some [] } }
    "solana" (by decide)

/-- Claim C9, counterexample: the plain-object lookup of `extractPayment` is
not case-insensitive — it consults only the exact spellings `X-PAYMENT` and
`x-payment`, so a headers object carrying the payment header under the
mixed-case key `X-Payment` (the same name up to ASCII case) yields `null`
instead of the token. -/
theorem c9_case_sensitivity_counterexample :
    extractPayment [("X-Payment", .single "token123")] = none ∧
      lowerAscii "X-Payment" = lowerAscii "X-PAYMENT" := by
  constructor
  · rfl
  · rfl

/-- Claim C9, amended: on plain headers objects `extractPayment` looks up
only the two exact spellings `X-PAYMENT` then `x-payment` (other casings
yield `null`); it returns the first element when the stored value is an
array, and `null` when the header is absent.  Only the Fetch-API `Headers`
branch is case-insensitive, via `Headers.get`. -/
theorem c9_extract_payment :
    (∀ headers s, headers.lookup "X-PAYMENT" = some (.single s) → s ≠ "" →
       extractPayment headers = some s) ∧
    (∀ headers first rest, headers.lookup "X-PAYMENT" = none →
       headers.lookup "x-payment" = some (.multi (first :: rest)) → first ≠ "" →
       extractPayment headers = some first) ∧
    (∀ headers, headers.lookup "X-PAYMENT" = none →
       headers.lookup "x-payment" = none → extractPayment headers = none) ∧
    (∀ name value, lowerAscii name = "x-payment" → value ≠ "" →
       extractPaymentHeaders [(name, value)] = some value) := by
  refine ⟨?_, ?_, ?_, ?_⟩
  · intro headers s h1 hs
    simp [extractPayment, h1, isTruthyHeaderValue, hs]
  · intro headers first rest h1 h2 hf
    simp [extractPayment, h1, h2, isTruthyHeaderValue, hf]
  · intro headers h1 h2
    simp [extractPayment, h1, h2, isTruthyHeaderValue]
  · intro name value hname hv
    have hfix : lowerAscii "X-PAYMENT" = "x-payment" := rfl
    simp [extractPaymentHeaders, headersGet, hname, hfix, joinCommaSpace, hv]

/-- Witness for C9: a lowercase multi-valued header yields its first value. -/
theorem c9_extract_payment_witness :
    extractPayment [("x-payment", .multi ["tokA", "tokB"])] = some "tokA" :=
  c9_extract_payment.2.1 [("x-payment", .multi ["tokA", "tokB"])] "tokA" ["tokB"]
    (by decide) (by decide) (by decide)

/-- Claim C10: the interceptor's supported-network pair is hardcoded and
independent of the configured network, which the client constructor consults
only for the default RPC URL — two configurations differing only in their
network but carrying an explicit RPC URL build identical clients, and a
requirement naming either Solana network is selected and paid no matter
which network the client was configured for. -/
theorem c10_fixed_network_pair :
    (∀ c1 c2 : XGrainClientConfig,
       c1.rpcUrl = c2.rpcUrl → c1.maxPaymentAmount = c2.maxPaymentAmount →
       (∀ url, c1.rpcUrl = some url → url ≠ "") → c1.rpcUrl ≠ none →
       mkXGrainClient c1 = mkXGrainClient c2) ∧
    (∀ req, suitableRequirement req =
       (req.scheme == "exact" &&
         (req.network == "solana-devnet" || req.network == "solana"))) ∧
    (∀ m, mkXGrainClient { network := "solana", rpcUrl := none, maxPaymentAmount := m } =
       .ok { rpcUrl := "https://api.mainnet-beta.solana.com", maxValue := m.getD 0 }) ∧
    (∀ m, mkXGrainClient { network := "solana-devnet", rpcUrl := none, maxPaymentAmount := m } =
       .ok { rpcUrl := "https://api.devnet.solana.com", maxValue := m.getD 0 }) ∧
    (paymentFetch respond402Devnet builderEx 0 initEx).calls.length = 2 := by
  refine ⟨?_, fun _ => rfl, fun m => rfl, fun m => rfl, rfl⟩
  intro c1 c2 h1 h2 hne hnn
  rcases hc : c1.rpcUrl with _ | url
  · exact absurd hc hnn
  · have hc2 : c2.rpcUrl = some url := h1 ▸ hc
    simp [mkXGrainClient, hc, hc2, hne url hc, h2]

/-- Witness for C10: explicit-RPC configurations for the two Solana networks
build the same client. -/
theorem c10_fixed_network_pair_witness :
    mkXGrainClient cfgMainnetEx = mkXGrainClient cfgDevnetEx :=
  c10_fixed_network_pair.1 cfgMainnetEx cfgDevnetEx rfl rfl
    (by intro url h; cases h; decide) (by simp [cfgMainnetEx])

/-- Inversion for successful builds: a built transaction arises exactly from
the validated inputs, with the instruction list in its fixed order. -/
theorem createSolanaPaymentHeader_ok_shape
    (wallet : WalletAdapter) (v : Nat) (req : PaymentRequirements)
    (chain : SolanaChainState) (tx : BuiltTransaction)
    (h : createSolanaPaymentHeader wallet v req chain = .ok tx) :
    ∃ feePayer walletAddress asset mintAcct amount,
      req.extra.bind (·.feePayer) = some feePayer ∧ feePayer ≠ "" ∧
      resolveWalletAddress wallet = some walletAddress ∧ walletAddress ≠ "" ∧
      req.payTo ≠ "" ∧ req.asset = some asset ∧ asset ≠ "" ∧
      chain.mintAccount = some mintAcct ∧
      chain.sourceAtaExists = true ∧
      parseBigInt req.maxAmountRequired = some amount ∧
      wallet.canSign = true ∧
      tx = { payerKey := feePayer,
             recentBlockhash := chain.blockhash,
             instructions :=
               builtInstructions feePayer req.payTo asset walletAddress
                 (tokenProgramFor mintAcct.owner) chain.destAtaExists
                 amount mintAcct.decimals,
             signedBy := walletAddress } := by
  unfold createSolanaPaymentHeader at h
  repeat' split at h
  all_goals try exact Except.noConfusion h
  injection h with h
  subst h
  exact ⟨_, _, _, _, _, by assumption, by assumption, by assumption, by assumption,
    by assumption, by assumption, by assumption, by assumption,
    by simpa using ‹¬¬chain.sourceAtaExists = true›, by assumption,
    by simpa using ‹¬¬wallet.canSign = true›, rfl⟩

/-- Claim C7: with a fee payer, wallet address, destination and asset
present, a readable mint owned by one of the two token programs, and an
existing source token account, the builder succeeds with a transaction whose
slots 0 and 1 hold the compute-unit-limit (40000) and compute-unit-price (1)
instructions ahead of everything else, whose final instruction is a checked
transfer of exactly the parsed `maxAmountRequired` using the decimals the
mint reports and the token program selected from the mint account's owner,
and whose fee payer is `extra.feePayer`. -/
theorem c7_built_transaction :
    ∀ wallet v req chain feePayer walletAddress asset mintAcct amount,
      req.extra.bind (·.feePayer) = some feePayer → feePayer ≠ "" →
      resolveWalletAddress wallet = some walletAddress → walletAddress ≠ "" →
      req.payTo ≠ "" → req.asset = some asset → asset ≠ "" →
      chain.mintAccount = some mintAcct →
      (mintAcct.owner = TOKEN_PROGRAM_ID ∨ mintAcct.owner = TOKEN_2022_PROGRAM_ID) →
      chain.sourceAtaExists = true →
      parseBigInt req.maxAmountRequired = some amount →
      wallet.canSign = true →
      ∃ tx, createSolanaPaymentHeader wallet v req chain = .ok tx ∧
        tx.payerKey = feePayer ∧
        tx.instructions.head? = some (.computeUnitLimit 40000) ∧
        tx.instructions[1]? = some (.computeUnitPrice 1) ∧
        tx.instructions.getLast? = some (.transferChecked
          (deriveAta asset walletAddress (tokenProgramFor mintAcct.owner)) asset
          (deriveAta asset req.payTo (tokenProgramFor mintAcct.owner))
          walletAddress amount mintAcct.decimals (tokenProgramFor mintAcct.owner)) ∧
        tokenProgramFor mintAcct.owner =
          (if mintAcct.owner = TOKEN_2022_PROGRAM_ID then TOKEN_2022_PROGRAM_ID
           else TOKEN_PROGRAM_ID) := by
  intro wallet v req chain feePayer walletAddress asset mintAcct amount
    hfp hfpne hwa hwane hpt has hasne hma howner hsrc hamt hsign
  have hguard : ¬ mintAcct.owner ≠ tokenProgramFor mintAcct.owner := by
    rcases howner with ho | ho <;> simp only [tokenProgramFor, ho] <;> decide
  have hbuild : createSolanaPaymentHeader wallet v req chain =
      .ok { payerKey := feePayer,
            recentBlockhash := chain.blockhash,
            instructions :=
              builtInstructions feePayer req.payTo asset walletAddress
                (tokenProgramFor mintAcct.owner) chain.destAtaExists
                amount mintAcct.decimals,
            signedBy := walletAddress } := by
    simp only [createSolanaPaymentHeader, hfp, hwa, has, hma, hamt]
    simp [hfpne, hwane, hpt, hasne, hguard, hsrc, hsign]
  refine ⟨_, hbuild, rfl, ?_, ?_, ?_, rfl⟩ <;>
    cases chain.destAtaExists <;> simp [builtInstructions]

/-- Witness for C7: the concrete fixture build succeeds with the required
shape. -/
theorem c7_built_transaction_witness :
    ∃ tx, createSolanaPaymentHeader walletEx 1 reqSolana chainEx = .ok tx ∧
      tx.payerKey = "FeePayer1111" ∧
      tx.instructions.head? = some (.computeUnitLimit 40000) ∧
      tx.instructions[1]? = some (.computeUnitPrice 1) ∧
      tx.instructions.getLast? = some (.transferChecked
        (deriveAta "EPjFWdd5AufqSSqeM2qN1xzybapC8G4wEGGkZwyTDt1v" "UserPubkey1111"
          (tokenProgramFor TOKEN_PROGRAM_ID))
        "EPjFWdd5AufqSSqeM2qN1xzybapC8G4wEGGkZwyTDt1v"
        (deriveAta "EPjFWdd5AufqSSqeM2qN1xzybapC8G4wEGGkZwyTDt1v" "Treasury1111"
          (tokenProgramFor TOKEN_PROGRAM_ID))
        "UserPubkey1111" 2500000 6 (tokenProgramFor TOKEN_PROGRAM_ID)) ∧
      tokenProgramFor TOKEN_PROGRAM_ID =
        (if TOKEN_PROGRAM_ID = TOKEN_2022_PROGRAM_ID then TOKEN_2022_PROGRAM_ID
         else TOKEN_PROGRAM_ID) :=
  c7_built_transaction walletEx 1 reqSolana chainEx "FeePayer1111" "UserPubkey1111"
    "EPjFWdd5AufqSSqeM2qN1xzybapC8G4wEGGkZwyTDt1v"
    { owner := TOKEN_PROGRAM_ID, decimals := 6 } 2500000
    rfl (by decide) rfl (by decide) (by decide) rfl (by decide) rfl
    (Or.inl rfl) rfl rfl rfl

/-- Claim C8: a missing sender token account makes the build fail with the
source-account error; in every successful build the sender's account existed
beforehand, a creation instruction appears exactly when the destination ATA
is absent, every creation instruction targets the destination's ATA with the
fee payer (not the sender) as its funding payer, and — whenever the chain
state is consistent for coinciding accounts — no creation instruction ever
targets the sender's derived ATA. -/
theorem c8_source_account_and_dest_creation :
    (∀ wallet v req chain feePayer walletAddress asset mintAcct,
       req.extra.bind (·.feePayer) = some feePayer → feePayer ≠ "" →
       resolveWalletAddress wallet = some walletAddress → walletAddress ≠ "" →
       req.payTo ≠ "" → req.asset = some asset → asset ≠ "" →
       chain.mintAccount = some mintAcct →
       (mintAcct.owner = TOKEN_PROGRAM_ID ∨ mintAcct.owner = TOKEN_2022_PROGRAM_ID) →
       chain.sourceAtaExists = false →
       createSolanaPaymentHeader wallet v req chain = .error .sourceAccountNotFound) ∧
    (∀ wallet v req chain tx, createSolanaPaymentHeader wallet v req chain = .ok tx →
       chain.sourceAtaExists = true ∧
       (∀ payer ata owner mint prog,
          SolInstruction.createAta payer ata owner mint prog ∈ tx.instructions →
          req.extra.bind (·.feePayer) = some payer ∧ owner = req.payTo ∧
          ata = deriveAta mint req.payTo prog ∧ chain.destAtaExists = false) ∧
       (chain.destAtaExists = false →
          ∃ payer ata owner mint prog,
            SolInstruction.createAta payer ata owner mint prog ∈ tx.instructions) ∧
       (∀ walletAddress payer ata owner mint prog,
          resolveWalletAddress wallet = some walletAddress →
          SolInstruction.createAta payer ata owner mint prog ∈ tx.instructions →
          ata = deriveAta mint walletAddress prog →
          chain.sourceAtaExists = chain.destAtaExists → False)) := by
  constructor
  · intro wallet v req chain feePayer walletAddress asset mintAcct
      hfp hfpne hwa hwane hpt has hasne hma howner hsrc
    have hguard : ¬ mintAcct.owner ≠ tokenProgramFor mintAcct.owner := by
      rcases howner with ho | ho <;> simp only [tokenProgramFor, ho] <;> decide
    simp only [createSolanaPaymentHeader, hfp, hwa, has, hma]
    simp [hfpne, hwane, hpt, hasne, hguard, hsrc]
  · intro wallet v req chain tx h
    obtain ⟨fp, wa, asset, mintAcct, amount, hfp, hfpne, hwa, hwane, hpt, has, hasne,
      hma, hsrc, hamt, hsign, htx⟩ :=
      createSolanaPaymentHeader_ok_shape wallet v req chain tx h
    subst htx
    refine ⟨hsrc, ?_, ?_, ?_⟩
    · intro payer ata owner mint prog hmem
      cases hdest : chain.destAtaExists
      · rw [hdest] at hmem
        simp [builtInstructions] at hmem
        obtain ⟨h1, h2, h3, h4, h5⟩ := hmem
        subst h1; subst h2; subst h3; subst h4; subst h5
        exact ⟨hfp, rfl, rfl, rfl⟩
      · rw [hdest] at hmem
        simp [builtInstructions] at hmem
    · intro hdest
      rw [hdest]
      exact ⟨fp, deriveAta asset req.payTo (tokenProgramFor mintAcct.owner),
        req.payTo, asset, tokenProgramFor mintAcct.owner,
        by simp [builtInstructions]⟩
    · intro wa2 payer ata owner mint prog hwa2 hmem hata hcons
      cases hdest : chain.destAtaExists
      · rw [hsrc, hdest] at hcons
        exact Bool.noConfusion hcons
      · rw [hdest] at hmem
        simp [builtInstructions] at hmem

/-- Witness for C8: the fixture without a sender token account fails with
the source-account error. -/
theorem c8_source_account_witness :
    createSolanaPaymentHeader walletEx 1 reqSolana chainNoSourceEx =
      .error .sourceAccountNotFound :=
  c8_source_account_and_dest_creation.1 walletEx 1 reqSolana chainNoSourceEx
    "FeePayer1111" "UserPubkey1111" "EPjFWdd5AufqSSqeM2qN1xzybapC8G4wEGGkZwyTDt1v"
    { owner := TOKEN_PROGRAM_ID, decimals := 6 }
    rfl (by decide) rfl (by decide) (by decide) rfl (by decide) rfl
    (Or.inl rfl) rfl

/-- Decoding inverts the alphabet on six-bit values. -/
theorem b64Index_b64Char : ∀ i < 64, b64Index (b64Char i) = some i := by decide

/-- Alphabet characters are never the padding character. -/
theorem b64Char_ne_pad : ∀ i < 64, ¬ b64Char i = '=' := by decide

/-- Base64 decoding inverts base64 encoding on byte lists. -/
theorem base64_roundtrip :
    ∀ bs : List Nat, (∀ x ∈ bs, x < 256) → base64Decode (base64Encode bs) = some bs
  | [], _ => rfl
  | [a], h => by
    have ha : a < 256 := h a (by simp)
    have h1 : b64Index (b64Char (a / 4)) = some (a / 4) := b64Index_b64Char _ (by omega)
    have h2 : b64Index (b64Char (a % 4 * 16)) = some (a % 4 * 16) :=
      b64Index_b64Char _ (by omega)
    simp [base64Encode, base64Decode, h1, h2]
    omega
  | [a, b], h => by
    have ha : a < 256 := h a (by simp)
    have hb : b < 256 := h b (by simp)
    have h1 : b64Index (b64Char (a / 4)) = some (a / 4) := b64Index_b64Char _ (by omega)
    have h2 : b64Index (b64Char (a % 4 * 16 + b / 16)) = some (a % 4 * 16 + b / 16) :=
      b64Index_b64Char _ (by omega)
    have h3 : b64Index (b64Char (b % 16 * 4)) = some (b % 16 * 4) :=
      b64Index_b64Char _ (by omega)
    have hne3 : ¬ b64Char (b % 16 * 4) = '=' := b64Char_ne_pad _ (by omega)
    simp [base64Encode, base64Decode, h1, h2, h3, hne3]
    omega
  | a :: b :: c :: rest, h => by
    have ha : a < 256 := h a (by simp)
    have hb : b < 256 := h b (by simp)
    have hc : c < 256 := h c (by simp)
    have h1 : b64Index (b64Char (a / 4)) = some (a / 4) := b64Index_b64Char _ (by omega)
    have h2 : b64Index (b64Char (a % 4 * 16 + b / 16)) = some (a % 4 * 16 + b / 16) :=
      b64Index_b64Char _ (by omega)
    have h3 : b64Index (b64Char (b % 16 * 4 + c / 64)) = some (b % 16 * 4 + c / 64) :=
      b64Index_b64Char _ (by omega)
    have h4 : b64Index (b64Char (c % 64)) = some (c % 64) := b64Index_b64Char _ (by omega)
    have hne3 : ¬ b64Char (b % 16 * 4 + c / 64) = '=' := b64Char_ne_pad _ (by omega)
    have hne4 : ¬ b64Char (c % 64) = '=' := b64Char_ne_pad _ (by omega)
    have ih := base64_roundtrip rest (fun x hx => h x (by simp [hx]))
    have e1 : a / 4 * 4 + (a % 4 * 16 + b / 16) / 16 = a := by omega
    have e2 : (a % 4 * 16 + b / 16) % 16 * 16 + (b % 16 * 4 + c / 64) / 4 = b := by omega
    have e3 : (b % 16 * 4 + c / 64) % 4 * 64 + c % 64 = c := by omega
    simp [base64Encode, base64Decode, h1, h2, h3, h4, hne3, hne4, ih, e1, e2, e3]

/-- The decimal printer produces the base-ten digit characters, most
significant first. -/
theorem natToCharsAux_eq :
    ∀ (f n : Nat) (acc : List Char), n ≤ f →
      natToCharsAux f n acc =
        ((Nat.digits 10 n).reverse.map fun d => Char.ofNat (48 + d)) ++ acc := by
  intro f
  induction f with
  | zero => intro n acc hn; interval_cases n <;> simp [natToCharsAux]
  | succ f ih =>
    intro n acc hn
    by_cases h0 : n = 0
    · simp [natToCharsAux, h0]
    · rw [natToCharsAux, if_neg h0, ih (n / 10) _ (by omega),
        Nat.digits_def' (by norm_num) (Nat.pos_of_ne_zero h0)]
      simp

/-- Digit characters decode back to their digit value. -/
theorem digitChar_val : ∀ d < 10, (Char.ofNat (48 + d)).toNat - 48 = d := by decide

/-- Digit characters satisfy the digit predicate. -/
theorem digitChar_isDigit : ∀ d < 10, isDigitChar (Char.ofNat (48 + d)) = true := by decide

/-- Folding the digit-accumulation step over reversed digits recovers the
number. -/
theorem foldl_digits :
    ∀ (L : List Nat) (acc : Nat),
      L.reverse.foldl (fun a d => a * 10 + d) acc =
        acc * 10 ^ L.length + Nat.ofDigits 10 L := by
  intro L
  induction L with
  | nil => simp
  | cons d L ih =>
    intro acc
    simp only [List.reverse_cons, List.foldl_append, List.foldl_cons, List.foldl_nil, ih,
      Nat.ofDigits_cons, List.length_cons]
    ring

/-- The decimal value of the printed representation. -/
theorem digitsToNat_natToChars (n : Nat) : digitsToNat (natToChars n) = n := by
  by_cases h0 : n = 0
  · simp [natToChars, h0, digitsToNat]
  · rw [natToChars, if_neg h0, natToCharsAux_eq n n [] le_rfl, List.append_nil,
      digitsToNat, List.foldl_map]
    have hext : ∀ (a : Nat), ∀ d ∈ (Nat.digits 10 n).reverse,
        a * 10 + ((Char.ofNat (48 + d)).toNat - 48) = a * 10 + d := by
      intro a d hd
      rw [digitChar_val d (Nat.digits_lt_base (by norm_num) (List.mem_reverse.mp hd))]
    rw [List.foldl_ext _ (fun a d => a * 10 + d) 0 hext, foldl_digits, Nat.ofDigits_digits]
    simp

/-- Every character of the printed representation is a digit. -/
theorem natToChars_all_digits (n : Nat) : (natToChars n).all isDigitChar = true := by
  by_cases h0 : n = 0
  · simp [natToChars, h0, isDigitChar]
  · rw [natToChars, if_neg h0, natToCharsAux_eq n n [] le_rfl, List.append_nil]
    simp only [List.all_eq_true, List.mem_map, List.mem_reverse]
    rintro c ⟨d, hd, rfl⟩
    exact digitChar_isDigit d (Nat.digits_lt_base (by norm_num) hd)

/-- The printed representation is never empty. -/
theorem natToChars_ne_nil (n : Nat) : natToChars n ≠ [] := by
  by_cases h0 : n = 0
  · simp [natToChars, h0]
  · rw [natToChars, if_neg h0, natToCharsAux_eq n n [] le_rfl, List.append_nil]
    simp [Nat.digits_ne_nil_iff_ne_zero, h0]

/-- The digit-run consumer stops immediately at a boundary. -/
theorem parseNatAux_stop :
    ∀ (f : Nat) (rest : List Char) (acc : Nat),
      digitBoundary rest → parseNatAux f rest acc = (acc, rest) := by
  intro f rest acc h
  cases f with
  | zero => rfl
  | succ f =>
    cases rest with
    | nil => rfl
    | cons c r =>
      simp only [digitBoundary] at h
      simp [parseNatAux, h]

/-- The digit-run consumer consumes exactly a leading digit run. -/
theorem parseNatAux_run :
    ∀ (l : List Char) (f : Nat) (rest : List Char) (acc : Nat),
      l.all isDigitChar = true → l.length ≤ f → digitBoundary rest →
      parseNatAux f (l ++ rest) acc = (l.foldl (fun a c => a * 10 + (c.toNat - 48)) acc, rest) := by
  intro l
  induction l with
  | nil => intro f rest acc _ _ hrest; simpa using parseNatAux_stop f rest acc hrest
  | cons c l ih =>
    intro f rest acc hall hlen hrest
    cases f with
    | zero => simp at hlen
    | succ f =>
      simp only [List.all_cons, Bool.and_eq_true] at hall
      simp only [List.cons_append, parseNatAux, List.foldl_cons]
      rw [if_pos hall.1]
      exact ih f rest _ hall.2 (by simp only [List.length_cons] at hlen; omega) hrest

/-- Parsing inverts printing for natural-number literals at a number
boundary. -/
theorem parseNatPart_natToChars (n : Nat) (rest : List Char)
    (hb : numBoundary rest = true) :
    parseNatPart (natToChars n ++ rest) = some (n, rest) := by
  obtain ⟨c, l, hcl⟩ : ∃ c l, natToChars n = c :: l := by
    cases h : natToChars n with
    | nil => exact absurd h (natToChars_ne_nil n)
    | cons c l => exact ⟨c, l, rfl⟩
  have hall := natToChars_all_digits n
  rw [hcl] at hall
  simp only [List.all_cons, Bool.and_eq_true] at hall
  have hrest : digitBoundary rest := by
    cases rest with
    | nil => trivial
    | cons d r =>
      simp only [numBoundary, Bool.and_eq_true, Bool.not_eq_true'] at hb
      simp only [digitBoundary]
      exact hb.1.1.1
  have hval : l.foldl (fun a ch => a * 10 + (ch.toNat - 48)) (c.toNat - 48) = n := by
    have hv := digitsToNat_natToChars n
    rw [hcl] at hv
    simpa [digitsToNat] using hv
  rw [hcl, List.cons_append]
  simp only [parseNatPart]
  rw [if_pos hall.1,
    parseNatAux_run l (l ++ rest).length rest (c.toNat - 48) hall.2
      (by simp) hrest, hval]
  cases rest with
  | nil => rfl
  | cons d r =>
    simp only [numBoundary, Bool.and_eq_true, Bool.not_eq_true'] at hb
    have : ¬ (d = '.' ∨ d = 'e' ∨ d = 'E') := by
      rintro (h | h | h) <;> subst h <;> simp at hb
    simp [this]

/-- Parsing inverts printing for integer literals written from naturals. -/
theorem parseIntLit_natToChars (n : Nat) (rest : List Char)
    (hb : numBoundary rest = true) :
    parseIntLit (natToChars n ++ rest) = some ((n : Int), rest) := by
  obtain ⟨c, l, hcl⟩ : ∃ c l, natToChars n = c :: l := by
    cases h : natToChars n with
    | nil => exact absurd h (natToChars_ne_nil n)
    | cons c l => exact ⟨c, l, rfl⟩
  have hall := natToChars_all_digits n
  rw [hcl] at hall
  simp only [List.all_cons, Bool.and_eq_true] at hall
  have hcm : ¬ c = '-' := by
    intro he
    rw [he] at hall
    simpa [isDigitChar] using hall.1
  have hp := parseNatPart_natToChars n rest hb
  rw [hcl, List.cons_append]
  simp only [parseIntLit]
  rw [if_neg hcm, ← List.cons_append, ← hcl, hp]
  rfl

/-- Characters accepted verbatim by the string parser are consumed up to the
closing quote. -/
theorem parseStringBody_safe :
    ∀ (s : List Char) (f : Nat) (rest : List Char),
      s.length < f → s.all jsonSafeChar = true →
      parseStringBody f (s ++ '"' :: rest) = some (s, rest) := by
  intro s
  induction s with
  | nil =>
    intro f rest hf _
    cases f with
    | zero => omega
    | succ f => simp [parseStringBody]
  | cons c s ih =>
    intro f rest hf hall
    simp only [List.all_cons, Bool.and_eq_true] at hall
    have hc := hall.1
    simp only [jsonSafeChar, Bool.and_eq_true, Bool.not_eq_true', beq_eq_false_iff_ne,
      ne_eq, decide_eq_false_iff_not] at hc
    cases f with
    | zero => omega
    | succ f =>
      simp only [List.cons_append, parseStringBody]
      rw [if_neg hc.1.1, if_neg hc.1.2, if_neg hc.2,
        show s.append ('"' :: rest) = s ++ '"' :: rest from rfl,
        ih f rest (by simp at hf ⊢; omega) hall.2]
      rfl

/-- Whitespace skipping ignores a non-whitespace head. -/
theorem skipWs_cons (c : Char) (rest : List Char) (h : isJsonWs c = false) :
    skipWs (c :: rest) = c :: rest := by
  simp [skipWs, h]

/-- Decimal digits are not JSON whitespace. -/
theorem digit_not_ws (c : Char) (h : isDigitChar c = true) : isJsonWs c = false := by
  simp only [isJsonWs, Bool.or_eq_false_iff, beq_eq_false_iff_ne, ne_eq]
  refine ⟨⟨⟨?_, ?_⟩, ?_⟩, ?_⟩ <;> rintro rfl <;> simp [isDigitChar] at h

/-- A quoted safe string parses as a JSON string value. -/
theorem parseValue_string (f : Nat) (s rest : List Char)
    (hlen : s.length < f) (hs : s.all jsonSafeChar = true) :
    parseValue (f + 1) ('"' :: (s ++ '"' :: rest)) = some (Json.jstr s, rest) := by
  simp only [parseValue]
  rw [skipWs_cons _ _ (by decide)]
  simp [parseStringBody_safe s f rest hlen hs]

/-- A printed natural number parses as a JSON number value at a number
boundary. -/
theorem parseValue_nat (f v : Nat) (rest : List Char) (hb : numBoundary rest = true) :
    parseValue (f + 1) (natToChars v ++ rest) = some (Json.jnum (v : Int), rest) := by
  obtain ⟨c, l, hcl⟩ : ∃ c l, natToChars v = c :: l := by
    cases h : natToChars v with
    | nil => exact absurd h (natToChars_ne_nil v)
    | cons c l => exact ⟨c, l, rfl⟩
  have hall := natToChars_all_digits v
  rw [hcl] at hall
  simp only [List.all_cons, Bool.and_eq_true] at hall
  have hd := hall.1
  have hne : ∀ x : Char, isDigitChar x = false → ¬ c = x := fun x hx he =>
    absurd (he ▸ hd) (by simp [hx])
  simp only [parseValue]
  rw [hcl, List.cons_append, skipWs_cons _ _ (digit_not_ws c hd)]
  simp only [hne 'n' (by decide), hne 't' (by decide), hne 'f' (by decide),
    hne '"' (by decide), hne '\x7b' (by decide), hne '[' (by decide), if_false]
  rw [← List.cons_append, ← hcl, parseIntLit_natToChars v rest hb]
  rfl

/-- One object member with a safe key: parse the key, the colon, the value,
and hand the continuation to the separator dispatch. -/
theorem parseMembers_step (f : Nat) {key tail : List Char} {valRes : Json}
    {afterVal : List Char}
    (hkey : key.all jsonSafeChar = true) (hklen : key.length < f)
    (hval : parseValue f tail = some (valRes, afterVal)) :
    parseMembers (f + 1) ('"' :: (key ++ '"' :: ':' :: tail)) =
      match skipWs afterVal with
      | [] => none
      | e :: r4 =>
        if e = ',' then (parseMembers f r4).map (fun p => ((key, valRes) :: p.1, p.2))
        else if e = '\x7d' then some ([(key, valRes)], r4)
        else none := by
  simp only [parseMembers]
  simp [skipWs, isJsonWs, parseStringBody_safe key f (':' :: tail) hklen hkey, hval]

/-- The stringified payment payload parses back to exactly its envelope JSON
value, leaving the remainder untouched. -/
theorem parseValue_envelope (g v : Nat) (scheme network txB64 rest : List Char)
    (hs : scheme.all jsonSafeChar = true) (hn : network.all jsonSafeChar = true)
    (ht : txB64.all jsonSafeChar = true)
    (hls : scheme.length < g) (hln : network.length < g) (hlt : txB64.length < g)
    (hg : 12 < g) :
    parseValue (g + 8) (stringifyPaymentPayload v scheme network txB64 ++ rest) =
      some (envelopeJson v scheme network txB64, rest) := by
  have e1 : ("\x7b\"x402Version\":" : String).toList =
      '\x7b' :: '"' :: ("x402Version".toList ++ ['"', ':']) := rfl
  have e2 : (",\"scheme\":\"" : String).toList =
      ',' :: '"' :: ("scheme".toList ++ ['"', ':', '"']) := rfl
  have e3 : ("\",\"network\":\"" : String).toList =
      '"' :: ',' :: '"' :: ("network".toList ++ ['"', ':', '"']) := rfl
  have e4 : ("\",\"payload\":\x7b\"transaction\":\"" : String).toList =
      '"' :: ',' :: '"' ::
        ("payload".toList ++ ['"', ':', '\x7b', '"'] ++
          ("transaction".toList ++ ['"', ':', '"'])) := rfl
  have e5 : ("\"\x7d\x7d" : String).toList = ['"', '\x7d', '\x7d'] := rfl
  have lk1 : ("x402Version".toList).length = 11 := rfl
  have lk2 : ("scheme".toList).length = 6 := rfl
  have lk3 : ("network".toList).length = 7 := rfl
  have lk4 : ("payload".toList).length = 7 := rfl
  have lk5 : ("transaction".toList).length = 11 := rfl
  -- the transaction member of the inner payload object
  have hTxVal : parseValue (g + 1) ('"' :: (txB64 ++ '"' :: '\x7d' :: '\x7d' :: rest)) =
      some (Json.jstr txB64, '\x7d' :: '\x7d' :: rest) :=
    parseValue_string g txB64 _ hlt ht
  have hTxMem : parseMembers (g + 2)
      ('"' :: ("transaction".toList ++ '"' :: ':' ::
        ('"' :: (txB64 ++ '"' :: '\x7d' :: '\x7d' :: rest)))) =
      some ([("transaction".toList, Json.jstr txB64)], '\x7d' :: rest) := by
    rw [parseMembers_step (g + 1)
      (show ("transaction".toList).all jsonSafeChar = true by decide)
      (by omega) hTxVal]
    simp [skipWs, isJsonWs]
  -- the payload member's object value
  have hPayloadVal : parseValue (g + 3)
      ('\x7b' :: '"' :: ("transaction".toList ++ '"' :: ':' ::
        ('"' :: (txB64 ++ '"' :: '\x7d' :: '\x7d' :: rest)))) =
      some (Json.jobj [("transaction".toList, Json.jstr txB64)], '\x7d' :: rest) := by
    simp at hTxMem
    simp only [parseValue]
    simp [skipWs, isJsonWs, hTxMem]
  -- the fourth (payload) member
  have hM4 : parseMembers (g + 4)
      ('"' :: ("payload".toList ++ '"' :: ':' ::
        ('\x7b' :: '"' :: ("transaction".toList ++ '"' :: ':' ::
          ('"' :: (txB64 ++ '"' :: '\x7d' :: '\x7d' :: rest)))))) =
      some ([("payload".toList,
        Json.jobj [("transaction".toList, Json.jstr txB64)])], rest) := by
    rw [parseMembers_step (g + 3)
      (show ("payload".toList).all jsonSafeChar = true by decide)
      (by omega) hPayloadVal]
    simp [skipWs, isJsonWs]
  -- the third (network) member
  have hNetVal : parseValue (g + 4)
      ('"' :: (network ++ '"' :: ',' ::
        ('"' :: ("payload".toList ++ '"' :: ':' ::
          ('\x7b' :: '"' :: ("transaction".toList ++ '"' :: ':' ::
            ('"' :: (txB64 ++ '"' :: '\x7d' :: '\x7d' :: rest)))))))) =
      some (Json.jstr network, ',' ::
        ('"' :: ("payload".toList ++ '"' :: ':' ::
          ('\x7b' :: '"' :: ("transaction".toList ++ '"' :: ':' ::
            ('"' :: (txB64 ++ '"' :: '\x7d' :: '\x7d' :: rest))))))) :=
    parseValue_string (g + 3) network _ (by omega) hn
  have hM3 : parseMembers (g + 5)
      ('"' :: ("network".toList ++ '"' :: ':' ::
        ('"' :: (network ++ '"' :: ',' ::
          ('"' :: ("payload".toList ++ '"' :: ':' ::
            ('\x7b' :: '"' :: ("transaction".toList ++ '"' :: ':' ::
              ('"' :: (txB64 ++ '"' :: '\x7d' :: '\x7d' :: rest)))))))))) =
      some ([("network".toList, Json.jstr network),
             ("payload".toList,
               Json.jobj [("transaction".toList, Json.jstr txB64)])], rest) := by
    rw [parseMembers_step (g + 4)
      (show ("network".toList).all jsonSafeChar = true by decide)
      (by omega) hNetVal]
    simp at hM4
    simp [skipWs, isJsonWs, hM4]
  -- the second (scheme) member
  have hSchemeVal : parseValue (g + 5)
      ('"' :: (scheme ++ '"' :: ',' ::
        ('"' :: ("network".toList ++ '"' :: ':' ::
          ('"' :: (network ++ '"' :: ',' ::
            ('"' :: ("payload".toList ++ '"' :: ':' ::
              ('\x7b' :: '"' :: ("transaction".toList ++ '"' :: ':' ::
                ('"' :: (txB64 ++ '"' :: '\x7d' :: '\x7d' :: rest)))))))))))) =
      some (Json.jstr scheme, ',' ::
        ('"' :: ("network".toList ++ '"' :: ':' ::
          ('"' :: (network ++ '"' :: ',' ::
            ('"' :: ("payload".toList ++ '"' :: ':' ::
              ('\x7b' :: '"' :: ("transaction".toList ++ '"' :: ':' ::
                ('"' :: (txB64 ++ '"' :: '\x7d' :: '\x7d' :: rest))))))))))) :=
    parseValue_string (g + 4) scheme _ (by omega) hs
  have hM2 : parseMembers (g + 6)
      ('"' :: ("scheme".toList ++ '"' :: ':' ::
        ('"' :: (scheme ++ '"' :: ',' ::
          ('"' :: ("network".toList ++ '"' :: ':' ::
            ('"' :: (network ++ '"' :: ',' ::
              ('"' :: ("payload".toList ++ '"' :: ':' ::
                ('\x7b' :: '"' :: ("transaction".toList ++ '"' :: ':' ::
                  ('"' :: (txB64 ++ '"' :: '\x7d' :: '\x7d' :: rest)))))))))))))) =
      some ([("scheme".toList, Json.jstr scheme),
             ("network".toList, Json.jstr network),
             ("payload".toList,
               Json.jobj [("transaction".toList, Json.jstr txB64)])], rest) := by
    rw [parseMembers_step (g + 5)
      (show ("scheme".toList).all jsonSafeChar = true by decide)
      (by omega) hSchemeVal]
    simp at hM3
    simp [skipWs, isJsonWs, hM3]
  -- the first (x402Version) member
  have hNumVal : parseValue (g + 6)
      (natToChars v ++ ',' ::
        ('"' :: ("scheme".toList ++ '"' :: ':' ::
          ('"' :: (scheme ++ '"' :: ',' ::
            ('"' :: ("network".toList ++ '"' :: ':' ::
              ('"' :: (network ++ '"' :: ',' ::
                ('"' :: ("payload".toList ++ '"' :: ':' ::
                  ('\x7b' :: '"' :: ("transaction".toList ++ '"' :: ':' ::
                    ('"' :: (txB64 ++ '"' :: '\x7d' :: '\x7d' :: rest))))))))))))))) =
      some (Json.jnum (v : Int), ',' ::
        ('"' :: ("scheme".toList ++ '"' :: ':' ::
          ('"' :: (scheme ++ '"' :: ',' ::
            ('"' :: ("network".toList ++ '"' :: ':' ::
              ('"' :: (network ++ '"' :: ',' ::
                ('"' :: ("payload".toList ++ '"' :: ':' ::
                  ('\x7b' :: '"' :: ("transaction".toList ++ '"' :: ':' ::
                    ('"' :: (txB64 ++ '"' :: '\x7d' :: '\x7d' :: rest))))))))))))))) :=
    parseValue_nat (g + 5) v _ (by simp [numBoundary, isDigitChar])
  have hM1 : parseMembers (g + 7)
      ('"' :: ("x402Version".toList ++ '"' :: ':' ::
        (natToChars v ++ ',' ::
          ('"' :: ("scheme".toList ++ '"' :: ':' ::
            ('"' :: (scheme ++ '"' :: ',' ::
              ('"' :: ("network".toList ++ '"' :: ':' ::
                ('"' :: (network ++ '"' :: ',' ::
                  ('"' :: ("payload".toList ++ '"' :: ':' ::
                    ('\x7b' :: '"' :: ("transaction".toList ++ '"' :: ':' ::
                      ('"' :: (txB64 ++ '"' :: '\x7d' :: '\x7d' :: rest))))))))))))))))) =
      some ([("x402Version".toList, Json.jnum (v : Int)),
             ("scheme".toList, Json.jstr scheme),
             ("network".toList, Json.jstr network),
             ("payload".toList,
               Json.jobj [("transaction".toList, Json.jstr txB64)])], rest) := by
    rw [parseMembers_step (g + 6)
      (show ("x402Version".toList).all jsonSafeChar = true by decide)
      (by omega) hNumVal]
    simp at hM2
    simp [skipWs, isJsonWs, hM2]
  -- assemble the top-level object
  simp only [stringifyPaymentPayload, e1, e2, e3, e4, e5, List.cons_append,
    List.append_assoc, List.nil_append]
  show parseValue ((g + 7) + 1) _ = _
  simp at hM1
  simp only [parseValue]
  simp [skipWs, isJsonWs, envelopeJson, hM1]

/-- Base64 alphabet characters (and the out-of-range default) are safe ASCII
for JSON string bodies. -/
theorem b64Char_ok (i : Nat) :
    (jsonSafeChar (b64Char i) && decide ((b64Char i).toNat < 128)) = true := by
  by_cases h : i < 64
  · exact (by decide :
      ∀ j < 64, (jsonSafeChar (b64Char j) && decide ((b64Char j).toNat < 128)) = true) i h
  · have hd : b64Char i = 'A' := by
      rw [b64Char, List.getD_eq_default]
      exact le_of_not_lt fun hlt =>
        h (lt_of_lt_of_le hlt (by decide))
    rw [hd]
    decide

/-- Base64 output is safe ASCII for JSON string bodies. -/
theorem base64Encode_headerSafe : ∀ bs : List Nat, headerSafe (base64Encode bs) = true
  | [] => rfl
  | [a] => by
    simp [base64Encode, headerSafe, b64Char_ok]
    decide
  | [a, b] => by
    simp [base64Encode, headerSafe, b64Char_ok]
    decide
  | a :: b :: c :: rest => by
    have ih := base64Encode_headerSafe rest
    simp only [headerSafe] at ih
    simp [base64Encode, headerSafe, b64Char_ok, ih]

/-- Decimal digit characters are safe ASCII for JSON string bodies. -/
theorem digitChar_ok (c : Char) (h : isDigitChar c = true) :
    (jsonSafeChar c && decide (c.toNat < 128)) = true := by
  simp only [isDigitChar, Bool.and_eq_true, decide_eq_true_iff] at h
  have h34 : ¬ c = '"' := fun he => absurd (he ▸ h) (by decide)
  have h92 : ¬ c = '\\' := fun he => absurd (he ▸ h) (by decide)
  simp only [jsonSafeChar, Bool.and_eq_true, Bool.not_eq_true', beq_eq_false_iff_ne, ne_eq,
    decide_eq_false_iff_not, decide_eq_true_iff]
  exact ⟨⟨⟨h34, h92⟩, by omega⟩, by omega⟩

/-- The printed version number is safe ASCII for JSON string bodies. -/
theorem natToChars_headerSafe (v : Nat) : headerSafe (natToChars v) = true := by
  have h := natToChars_all_digits v
  simp only [List.all_eq_true] at h
  simp only [headerSafe, List.all_eq_true]
  exact fun c hc => digitChar_ok c (h c hc)

/-- Safe ASCII strings need no JSON escaping. -/
theorem headerSafe_jsonSafe (s : List Char) (h : headerSafe s = true) :
    s.all jsonSafeChar = true := by
  simp only [headerSafe, List.all_eq_true, Bool.and_eq_true] at h
  simp only [List.all_eq_true]
  exact fun c hc => (h c hc).1

/-- Safe ASCII strings are ASCII. -/
theorem headerSafe_ascii (s : List Char) (h : headerSafe s = true) :
    asciiOnly s = true := by
  simp only [headerSafe, List.all_eq_true, Bool.and_eq_true] at h
  simp only [asciiOnly, List.all_eq_true]
  exact fun c hc => (h c hc).2

/-- ASCII-ness distributes over append. -/
theorem asciiOnly_append (a b : List Char) :
    asciiOnly (a ++ b) = (asciiOnly a && asciiOnly b) := by
  simp [asciiOnly, List.all_append]

/-- The bytes of an ASCII string are bytes. -/
theorem ascii_bytes_lt (s : List Char) (h : asciiOnly s = true) :
    ∀ x ∈ charsToBytes s, x < 256 := by
  simp only [asciiOnly, List.all_eq_true, decide_eq_true_iff] at h
  simp only [charsToBytes, List.mem_map]
  rintro x ⟨c, hc, rfl⟩
  have := h c hc
  omega

/-- ASCII byte decoding inverts the byte view of an ASCII string. -/
theorem bytesToAscii_charsToBytes (s : List Char) (h : asciiOnly s = true) :
    bytesToAscii (charsToBytes s) = some s := by
  simp only [asciiOnly, List.all_eq_true, decide_eq_true_iff] at h
  have hall : (charsToBytes s).all (· < 128) = true := by
    simp only [charsToBytes, List.all_eq_true, List.mem_map, decide_eq_true_iff]
    rintro x ⟨c, hc, rfl⟩
    exact h c hc
  rw [bytesToAscii, if_pos hall, charsToBytes, List.map_map]
  have hid : (Char.ofNat ∘ fun c : Char => c.toNat) = id := funext fun c => Char.ofNat_toNat c
  rw [hid, List.map_id]

/-- The stringified payload is ASCII whenever its interpolated strings
are safe ASCII. -/
theorem stringify_ascii (v : Nat) (scheme network txB64 : List Char)
    (hs : headerSafe scheme = true) (hn : headerSafe network = true)
    (ht : headerSafe txB64 = true) :
    asciiOnly (stringifyPaymentPayload v scheme network txB64) = true := by
  have hv := headerSafe_ascii _ (natToChars_headerSafe v)
  have l1 : asciiOnly "\x7b\"x402Version\":".toList = true := by decide
  have l2 : asciiOnly ",\"scheme\":\"".toList = true := by decide
  have l3 : asciiOnly "\",\"network\":\"".toList = true := by decide
  have l4 : asciiOnly "\",\"payload\":\x7b\"transaction\":\"".toList = true := by decide
  have l5 : asciiOnly "\"\x7d\x7d".toList = true := by decide
  simp only [stringifyPaymentPayload, asciiOnly_append, l1, l2, l3, l4, l5,
    headerSafe_ascii _ hs, headerSafe_ascii _ hn, headerSafe_ascii _ ht, hv,
    Bool.and_self]
/-- Parsing the stringified envelope at the fuel `jsonParse` allots yields
the envelope JSON value with nothing left over. -/
theorem jsonParse_envelope (v : Nat) (scheme network txB64 : List Char)
    (hs : scheme.all jsonSafeChar = true) (hn : network.all jsonSafeChar = true)
    (ht : txB64.all jsonSafeChar = true) :
    jsonParse (stringifyPaymentPayload v scheme network txB64) =
      some (envelopeJson v scheme network txB64) := by
  have lk1 : ("\x7b\"x402Version\":" : String).toList.length = 15 := by decide
  have lk2 : ((",\"scheme\":\"" : String).toList).length = 11 := by decide
  have lk3 : (("\",\"network\":\"" : String).toList).length = 13 := by decide
  have lk4 : (("\",\"payload\":\x7b\"transaction\":\"" : String).toList).length = 28 := by decide
  have lk5 : (("\"\x7d\x7d" : String).toList).length = 3 := by decide
  have hfuel : (stringifyPaymentPayload v scheme network txB64).length + 1 =
      (63 + (natToChars v).length + scheme.length + network.length +
        txB64.length) + 8 := by
    simp only [stringifyPaymentPayload, List.length_append, lk1, lk2, lk3, lk4, lk5]
    omega
  have h := parseValue_envelope
    (63 + (natToChars v).length + scheme.length + network.length + txB64.length)
    v scheme network txB64 [] hs hn ht (by omega) (by omega) (by omega) (by omega)
  rw [List.append_nil] at h
  rw [jsonParse, hfuel, h]
  rfl

/-- Decoding an encoded payment header recovers the envelope whenever the
scheme is the literal `exact` and the network is in the schema's enum. -/
theorem decode_encode (txBytes : List Nat) (network : List Char) (v : Nat)
    (hb : ∀ x ∈ txBytes, x < 256)
    (hn : headerSafe network = true)
    (hnet : validNetworks.any (fun n => n.toList == network) = true) :
    decodePaymentHeader
        (createPaymentHeaderFromTransaction txBytes "exact".toList network v) =
      some ⟨(v : Int), "exact".toList, network, base64Encode txBytes⟩ := by
  have hs : headerSafe "exact".toList = true := by decide
  have ht : headerSafe (base64Encode txBytes) = true := base64Encode_headerSafe txBytes
  have hascii : asciiOnly
      (stringifyPaymentPayload v "exact".toList network (base64Encode txBytes)) = true :=
    stringify_ascii v _ _ _ hs hn ht
  have hbytes : ∀ x ∈ charsToBytes
      (stringifyPaymentPayload v "exact".toList network (base64Encode txBytes)),
      x < 256 := ascii_bytes_lt _ hascii
  have hb64 := base64_roundtrip _ hbytes
  have hascii2 := bytesToAscii_charsToBytes _ hascii
  have hjson := jsonParse_envelope v "exact".toList network (base64Encode txBytes)
    (headerSafe_jsonSafe _ hs) (headerSafe_jsonSafe _ hn) (headerSafe_jsonSafe _ ht)
  have f1 : jsonField
      [("x402Version".toList, Json.jnum (v : Int)),
       ("scheme".toList, Json.jstr "exact".toList),
       ("network".toList, Json.jstr network),
       ("payload".toList,
        Json.jobj [("transaction".toList, Json.jstr (base64Encode txBytes))])]
      "x402Version" = some (Json.jnum (v : Int)) := rfl
  have f2 : jsonField
      [("x402Version".toList, Json.jnum (v : Int)),
       ("scheme".toList, Json.jstr "exact".toList),
       ("network".toList, Json.jstr network),
       ("payload".toList,
        Json.jobj [("transaction".toList, Json.jstr (base64Encode txBytes))])]
      "scheme" = some (Json.jstr "exact".toList) := rfl
  have f3 : jsonField
      [("x402Version".toList, Json.jnum (v : Int)),
       ("scheme".toList, Json.jstr "exact".toList),
       ("network".toList, Json.jstr network),
       ("payload".toList,
        Json.jobj [("transaction".toList, Json.jstr (base64Encode txBytes))])]
      "network" = some (Json.jstr network) := rfl
  have f4 : jsonField
      [("x402Version".toList, Json.jnum (v : Int)),
       ("scheme".toList, Json.jstr "exact".toList),
       ("network".toList, Json.jstr network),
       ("payload".toList,
        Json.jobj [("transaction".toList, Json.jstr (base64Encode txBytes))])]
      "payload" =
        some (Json.jobj [("transaction".toList, Json.jstr (base64Encode txBytes))]) := rfl
  have f5 : jsonField [("transaction".toList, Json.jstr (base64Encode txBytes))]
      "transaction" = some (Json.jstr (base64Encode txBytes)) := rfl
  simp at f1 f2 f3 f4 f5 hjson hb64 hascii2 hnet
  simp [decodePaymentHeader, createPaymentHeaderFromTransaction, hb64, hascii2,
    hjson, envelopeJson, f1, f2, f3, f4, f5, hnet]
/-- C2: encoding a payment header (serialize the transaction to base64, wrap
it in the version/scheme/network/payload JSON envelope, base64-encode the
JSON text) and then decoding the token yields the original envelope, with
the transaction bytes round-tripping bit-exact; and decoding rejects any
token whose outer JSON does not parse, as well as any token whose scheme
field is not the literal `exact`. -/
theorem c2_header_codec_roundtrip :
    (∀ (txBytes : List Nat) (network : List Char) (v : Nat),
        (∀ x ∈ txBytes, x < 256) →
        headerSafe network = true →
        validNetworks.any (fun n => n.toList == network) = true →
        ∃ env : PaymentHeaderEnvelope,
          decodePaymentHeader
              (createPaymentHeaderFromTransaction txBytes "exact".toList network v) =
            some env ∧
          env.x402Version = (v : Int) ∧ env.scheme = "exact".toList ∧
          env.network = network ∧
          base64Decode env.transaction = some txBytes) ∧
    (∀ (token : List Char) (bytes : List Nat) (chars : List Char),
        base64Decode token = some bytes →
        bytesToAscii bytes = some chars →
        jsonParse chars = none →
        decodePaymentHeader token = none) ∧
    (∀ (token : List Char) (bytes : List Nat) (chars : List Char)
        (fields : List (List Char × Json)) (s : List Char),
        base64Decode token = some bytes →
        bytesToAscii bytes = some chars →
        jsonParse chars = some (Json.jobj fields) →
        jsonField fields "scheme" = some (Json.jstr s) →
        s ≠ "exact".toList →
        decodePaymentHeader token = none) := by
  refine ⟨?_, ?_, ?_⟩
  · intro txBytes network v hb hn hnet
    exact ⟨⟨(v : Int), "exact".toList, network, base64Encode txBytes⟩,
      decode_encode txBytes network v hb hn hnet, rfl, rfl, rfl,
      base64_roundtrip txBytes hb⟩
  · intro token bytes chars h1 h2 h3
    simp [decodePaymentHeader, h1, h2, h3]
  · intro token bytes chars fields s h1 h2 h3 h4 hne
    simp [decodePaymentHeader, h1, h2, h3]
    rw [h4]
    split
    all_goals try rfl
    rename_i x1 x2 x3 x4 v1 scheme1 network1 pf hx hsch hnw hpf
    injection hsch with hsch
    injection hsch with hsch
    subst hsch
    exact if_neg fun hc => hne hc.1

/-- Concrete instantiation of the header-codec claim: a three-byte
transaction on `solana` round-trips, an unparsable token is rejected, and a
token with scheme `other` is rejected. -/
theorem c2_header_codec_roundtrip_witness :
    (∃ env : PaymentHeaderEnvelope,
      decodePaymentHeader
          (createPaymentHeaderFromTransaction [1, 2, 255] "exact".toList
            "solana".toList 1) = some env ∧
      env.x402Version = ((1 : Nat) : Int) ∧ env.scheme = "exact".toList ∧
      env.network = "solana".toList ∧
      base64Decode env.transaction = some [1, 2, 255]) ∧
    decodePaymentHeader (base64Encode [64]) = none ∧
    decodePaymentHeader
        (base64Encode (charsToBytes "\x7b\"scheme\":\"other\"\x7d".toList)) =
      none :=
  ⟨c2_header_codec_roundtrip.1 [1, 2, 255] "solana".toList 1 (by decide)
      (by decide) (by decide),
   c2_header_codec_roundtrip.2.1 (base64Encode [64]) [64] ['@'] (by decide)
      rfl rfl,
   c2_header_codec_roundtrip.2.2
      (base64Encode (charsToBytes "\x7b\"scheme\":\"other\"\x7d".toList))
      (charsToBytes "\x7b\"scheme\":\"other\"\x7d".toList)
      ("\x7b\"scheme\":\"other\"\x7d".toList)
      [("scheme".toList, Json.jstr "other".toList)] "other".toList
      (by decide) rfl rfl rfl (by decide)⟩
